import Mathlib

/-!
Verification development for the UPSCSuperApp quiz application.

The repository's core consists of a data-normalization layer
(`assets/js/adapter.js`, several revisions) and a quiz session engine
(`assets/js/engine.js`, revisions 5.0 and 6.1).  This file gives a shallow
embedding of those components and proves properties of the embedding.

JavaScript values reaching the adapter are JSON-derived, so we model them
with an inductive `JSValue` (numbers as rationals, since the adapter and the
engine only copy and compare them, plus the engine's decimal arithmetic).
Property access on `null`/`undefined` throws in JavaScript; fallible
operations therefore return `Except Unit`.
-/

/-- Model of a JavaScript value as seen by the adapter and engine:
JSON data plus the `undefined` produced by missing-property access. -/
inductive JSValue where
  | null
  | undefined
  | bool (b : Bool)
  | num (q : ℚ)
  | str (s : String)
  | arr (xs : List JSValue)
  | obj (kvs : List (String × JSValue))

/-- JavaScript truthiness: `null`, `undefined`, `false`, `0`, and the empty
string are falsy; every array and object is truthy. -/
def truthy : JSValue → Bool
  | .null => false
  | .undefined => false
  | .bool b => b
  | .num q => !(q == 0)
  | .str s => !s.data.isEmpty
  | .arr _ => true
  | .obj _ => true

/-- `Array.isArray`. -/
def isArr : JSValue → Bool
  | .arr _ => true
  | _ => false

/-- Element list of an array value (callers only apply it under `isArr`). -/
def asArr : JSValue → List JSValue
  | .arr xs => xs
  | _ => []

/-- Own enumerable (key, value) pairs, as traversed by `Object.keys` /
property lookup.  Arrays and strings expose only numeric index keys
(`"0"`, `"1"`, ...) whose values are elements/characters, never matching
the alphabetic field names the adapter looks up and never holding a nested
array the wrapper scan could find, so they are modelled as exposing no
relevant entries; other primitives expose none. -/
def jsEntries : JSValue → List (String × JSValue)
  | .obj kvs => kvs
  | _ => []

/-- Property read `v[k]` on a receiver already known to be non-null;
missing properties yield `undefined`.  (On `null`/`undefined` receivers
JavaScript throws; callers guard with `getProp`/`truthy` first.) -/
def propOf (v : JSValue) (k : String) : JSValue :=
  match (jsEntries v).find? (fun kv => kv.1 == k) with
  | some kv => kv.2
  | none => .undefined

/-- Property read `v[k]` as JavaScript performs it: a `TypeError` on a
`null`/`undefined` receiver, `undefined` for a missing key. -/
def getProp (v : JSValue) (k : String) : Except Unit JSValue :=
  match v with
  | .null => .error ()
  | .undefined => .error ()
  | _ => .ok (propOf v k)

/-- `toLowerCase()`, written by structural recursion over the character
list so that concrete strings evaluate inside the kernel. -/
def jsToLower (s : String) : String :=
  ⟨s.data.map Char.toLower⟩

/-- `trim()`: strip leading and trailing whitespace. -/
def jsTrim (s : String) : String :=
  ⟨((s.data.dropWhile Char.isWhitespace).reverse.dropWhile Char.isWhitespace).reverse⟩

/-- `String.prototype.includes(needle)`: substring containment. -/
def jsIncludes (s needle : String) : Bool :=
  s.data.tails.any (fun t => needle.data.isPrefixOf t)

namespace AdapterV61

/-!
Embedding of `Adapter` version 6.1.0 ("Smart Scan Edition"),
`src/unnamed/part_000`.  This is the latest adapter revision in the
repository; the engine consumes its output shape.
-/

/-- Normalized explanation record built by `_normalizeItem` step 4. -/
structure Explanation where
  core : JSValue
  expert_note : JSValue
  elimination : JSValue

/-- Normalized question record built by `_normalizeItem` step 5
("This schema matches exactly what Engine.js expects"). -/
structure Question where
  id : JSValue
  text : JSValue
  options : List JSValue
  correctIndex : ℚ
  topic : JSValue
  difficulty : JSValue
  tags : JSValue
  explanation : Explanation

/-- Candidate loop of the `getVal` helper in `_normalizeItem`: for each
candidate key, first an exact-key access kept only when truthy, then a
case-insensitive scan of the object's own keys (whose value is returned
even when falsy); `null` when no candidate matches. -/
def getValLoop (q : JSValue) (keys keysLower : List String) : List String → JSValue
  | [] => .null
  | c :: rest =>
    if truthy (propOf q c) then propOf q c
    else
      match List.findIdx? (fun k => k == jsToLower c) keysLower with
      | some i => propOf q ((keys.get? i).getD "")
      | none => getValLoop q keys keysLower rest

/-- The `getVal` helper (case-insensitive property finder).  It begins with
`Object.keys(obj)`, which throws on a `null`/`undefined` receiver. -/
def getVal (q : JSValue) (cands : List String) : Except Unit JSValue :=
  match q with
  | .null => .error ()
  | .undefined => .error ()
  | _ =>
    let keys := (jsEntries q).map Prod.fst
    .ok (getValLoop q keys (keys.map jsToLower) cands)

/-- Letter-code interpretation of a string answer: first character of the
trimmed string, uppercased, looked up in `{A:0,B:1,C:2,D:3}`. -/
def letterIndex (s : String) : Option ℚ :=
  match (jsTrim s).data with
  | [] => none
  | c :: _ =>
    match c.toUpper with
    | 'A' => some 0
    | 'B' => some 1
    | 'C' => some 2
    | 'D' => some 3
    | _ => none

/-- Default explanation record. -/
def defaultExpl : Explanation :=
  { core := .str "Detailed explanation not available for this question."
    expert_note := .null
    elimination := .null }

/-- Generated fallback id `q_${Date.now()}_${index}`. -/
def genId (nowMs index : ℕ) : String :=
  "q_" ++ toString nowMs ++ "_" ++ toString index

/-- Step 3 of `_normalizeItem`: a numeric answer is used directly as the
index; a string answer goes through the letter map with default 0; any
other value leaves the default 0. -/
def answerIndexOf (rawAns : JSValue) : ℚ :=
  match rawAns with
  | .num r => r
  | .str s =>
    match letterIndex s with
    | some k => k
    | none => 0
  | _ => 0

/-- Step 4 of `_normalizeItem` ("Safe Explanation Handling"): a string
explanation becomes the core (with an optional separate notes field as the
expert note); an object explanation (`typeof === 'object'`, which includes
arrays) has its sub-fields extracted with the same alias mechanism; any
other truthy value, or a falsy one, leaves the full default record. -/
def explanationFor (q rawExpl : JSValue) : Except Unit Explanation :=
  if truthy rawExpl then
    match rawExpl with
    | .str s => do
      let notes ← getVal q ["notes", "remark", "tip"]
      pure { core := .str s
             expert_note := if truthy notes then notes else .null
             elimination := .null }
    | .obj kvs => do
      let c ← getVal (.obj kvs) ["core", "text", "main"]
      let en ← getVal (.obj kvs) ["expert_note", "note", "extra"]
      let el ← getVal (.obj kvs) ["elimination", "trick"]
      pure { core := if truthy c then c else defaultExpl.core
             expert_note := if truthy en then en else .null
             elimination := if truthy el then el else .null }
    | .arr xs => do
      let c ← getVal (.arr xs) ["core", "text", "main"]
      let en ← getVal (.arr xs) ["expert_note", "note", "extra"]
      let el ← getVal (.arr xs) ["elimination", "trick"]
      pure { core := if truthy c then c else defaultExpl.core
             expert_note := if truthy en then en else .null
             elimination := if truthy el then el else .null }
    | _ => pure defaultExpl
  else
    pure defaultExpl

/-- `Adapter._normalizeItem`, v6.1.  Returns `none` for a dropped item,
`some` for a normalized question; errors model thrown `TypeError`s
(`Object.keys` on a `null` item). -/
def normalizeItem (nowMs : ℕ) (q : JSValue) (index : ℕ) : Except Unit (Option Question) := do
  let qText ← getVal q ["question", "text", "q", "title", "statement"]
  let qOptions ← getVal q ["options", "choices", "answers", "alternatives"]
  match qOptions with
  | .arr opts =>
    if !truthy qText || opts.length < 2 then
      pure none
    else do
      let rawAns ← getVal q ["answer", "correct", "correctIndex", "ans"]
      let rawExpl ← getVal q ["explanation", "solution", "rationale", "desc"]
      let expl ← explanationFor q rawExpl
      let idv ← getProp q "id"
      let topicv ← getVal q ["topic", "subject", "category"]
      let diffv ← getVal q ["difficulty", "level"]
      let tagsv ← getVal q ["tags", "keywords"]
      pure (some
        { id := if truthy idv then idv else .str (genId nowMs index)
          text := qText
          options := opts
          correctIndex := answerIndexOf rawAns
          topic := if truthy topicv then topicv else .str "General"
          difficulty := if truthy diffv then diffv else .str "Moderate"
          tags := if truthy tagsv then tagsv else .arr []
          explanation := expl })
  | _ => pure none

/-- The `reduce` loop of `normalize`: each item is normalized with its index
and pushed when valid.  Unlike v5.3 there is no per-item `try`/`catch`, so a
thrown `TypeError` propagates out of `normalize`. -/
def processItemsFrom (nowMs : ℕ) : ℕ → List JSValue → Except Unit (List Question)
  | _, [] => .ok []
  | i, q :: rest => do
    let cleanItem ← normalizeItem nowMs q i
    let others ← processItemsFrom nowMs (i + 1) rest
    match cleanItem with
    | some x => pure (x :: others)
    | none => pure others

/-- Source-array detection of `normalize` v6.1: the input itself, its
`questions` field, its `data` field, or the first array-valued field found
by scanning the object's keys. -/
def findSourceArray (rawData : JSValue) : List JSValue :=
  match rawData with
  | .arr xs => xs
  | _ =>
    match propOf rawData "questions" with
    | .arr xs => xs
    | _ =>
      match propOf rawData "data" with
      | .arr xs => xs
      | _ =>
        match (jsEntries rawData).find? (fun kv => isArr kv.2) with
        | some kv => asArr kv.2
        | none => []

/-- `Adapter.normalize`, v6.1.  Falsy input and a missing source array both
yield an empty list with a logged diagnostic (no exception); item
processing can throw because it is not wrapped in `try`/`catch`. -/
def normalize (nowMs : ℕ) (rawData : JSValue) : Except Unit (List Question) :=
  if !truthy rawData then .ok []
  else
    let sourceArray := findSourceArray rawData
    if sourceArray.length = 0 then .ok []
    else processItemsFrom nowMs 0 sourceArray

/-- Reserialization of a normalized explanation record back to a
JavaScript object. -/
def explToJS (e : Explanation) : JSValue :=
  .obj [("core", e.core), ("expert_note", e.expert_note),
        ("elimination", e.elimination)]

/-- Key/value pairs of a reserialized normalized question — exactly the
keys `_normalizeItem` emits, in emission order. -/
def qkvs (q : Question) : List (String × JSValue) :=
  [("id", q.id), ("text", q.text), ("options", .arr q.options),
   ("correctIndex", .num q.correctIndex), ("topic", q.topic),
   ("difficulty", q.difficulty), ("tags", q.tags),
   ("explanation", explToJS q.explanation)]

/-- Reserialization of a normalized question back to a JavaScript object. -/
def questionToJS (q : Question) : JSValue :=
  .obj (qkvs q)

/-- Shape invariant satisfied by every question `_normalizeItem` emits. -/
def NormalizedQ (q : Question) : Prop :=
  truthy q.id = true ∧ truthy q.text = true ∧ 2 ≤ q.options.length ∧
  truthy q.topic = true ∧ truthy q.difficulty = true ∧ truthy q.tags = true ∧
  truthy q.explanation.core = true ∧
  (q.explanation.expert_note = .null ∨ truthy q.explanation.expert_note = true) ∧
  (q.explanation.elimination = .null ∨ truthy q.explanation.elimination = true)

end AdapterV61

namespace AdapterV53

/-!
Embedding of `Adapter` version 5.3.0 ("Universal Fix"),
`src/unnamed/part_001`.  This revision wraps per-item normalization in
`try`/`catch`, so a corrupt item is skipped instead of crashing the batch.
-/

/-- Explanation record of the v5.3 schema (adds `mnemonics`). -/
structure Explanation53 where
  core : JSValue
  expert_note : JSValue
  elimination : JSValue
  mnemonics : JSValue

/-- Question record of the v5.3 schema. -/
structure Question53 where
  id : JSValue
  text : JSValue
  options : List JSValue
  correctIndex : JSValue
  topic : JSValue
  difficulty : JSValue
  tags : List JSValue
  explanation : Explanation53

/-- Default explanation of v5.3 (note the non-null default expert note). -/
def defaultExpl53 : Explanation53 :=
  { core := .str "Detailed explanation not available for this question."
    expert_note := .str "Focus on the core concept."
    elimination := .null
    mnemonics := .null }

/-- Explanation normalization of `_normalizeQuestion` v5.3.  `rawExpl` and
`notes` are the values of `q.explanation` and `q.notes`; the receiver of the
inner accesses is non-null because `rawExpl` is truthy in the object case. -/
def explanationOf53 (rawExpl notes : JSValue) : Explanation53 :=
  if truthy rawExpl then
    match rawExpl with
    | .str s =>
      { core := .str s
        expert_note := if truthy notes then notes else defaultExpl53.expert_note
        elimination := .null
        mnemonics := .null }
    | .obj kvs =>
      { core := if truthy (propOf (.obj kvs) "core") then propOf (.obj kvs) "core" else defaultExpl53.core
        expert_note :=
          if truthy (propOf (.obj kvs) "expert_note") then propOf (.obj kvs) "expert_note"
          else if truthy notes then notes else defaultExpl53.expert_note
        elimination := if truthy (propOf (.obj kvs) "elimination") then propOf (.obj kvs) "elimination" else .null
        mnemonics := if truthy (propOf (.obj kvs) "mnemonics") then propOf (.obj kvs) "mnemonics" else .null }
    | .arr xs =>
      { core := if truthy (propOf (.arr xs) "core") then propOf (.arr xs) "core" else defaultExpl53.core
        expert_note :=
          if truthy (propOf (.arr xs) "expert_note") then propOf (.arr xs) "expert_note"
          else if truthy notes then notes else defaultExpl53.expert_note
        elimination := if truthy (propOf (.arr xs) "elimination") then propOf (.arr xs) "elimination" else .null
        mnemonics := if truthy (propOf (.arr xs) "mnemonics") then propOf (.arr xs) "mnemonics" else .null }
    | _ => defaultExpl53
  else defaultExpl53

/-- `Adapter._normalizeQuestion`, v5.3.  Property access on a `null` item
throws (propagated as `Except.error`, to be caught by the caller). -/
def normalizeQuestion53 (nowMs : ℕ) (q : JSValue) (index : ℕ) :
    Except Unit (Option Question53) := do
  let qq ← getProp q "question"
  let qt ← getProp q "text"
  let qText := if truthy qq then qq else qt
  let qOpts ← getProp q "options"
  match qOpts with
  | .arr opts =>
    if !truthy qText then pure none
    else do
      let rawExpl ← getProp q "explanation"
      let notes ← getProp q "notes"
      let ans ← getProp q "answer"
      let ciRaw ← getProp q "correctIndex"
      let idv ← getProp q "id"
      let topicv ← getProp q "topic"
      let diffv ← getProp q "difficulty"
      let tagsv ← getProp q "tags"
      pure (some
        { id := if truthy idv then idv else .str (AdapterV61.genId nowMs index)
          text := qText
          options := opts
          correctIndex :=
            match ans with
            | .num r => .num r
            | _ => if truthy ciRaw then ciRaw else .num 0
          topic := if truthy topicv then topicv else .str "General"
          difficulty := if truthy diffv then diffv else .str "Moderate"
          tags := match tagsv with | .arr xs => xs | _ => [.str "General"]
          explanation := explanationOf53 rawExpl notes })
  | _ => pure none

/-- The v5.3 `reduce` loop with its `try`/`catch`: an item whose
normalization throws is skipped (warned about) and processing continues. -/
def processItems53 (nowMs : ℕ) : ℕ → List JSValue → List Question53
  | _, [] => []
  | i, q :: rest =>
    match normalizeQuestion53 nowMs q i with
    | .ok (some x) => x :: processItems53 nowMs (i + 1) rest
    | .ok none => processItems53 nowMs (i + 1) rest
    | .error _ => processItems53 nowMs (i + 1) rest

/-- `Adapter.normalize`, v5.3: handles falsy input, a bare array, and a
`{questions: [...]}` wrapper; anything else yields an empty list with a
logged diagnostic. -/
def normalize53 (nowMs : ℕ) (rawData : JSValue) : Except Unit (List Question53) :=
  if !truthy rawData then .ok []
  else if isArr rawData then .ok (processItems53 nowMs 0 (asArr rawData))
  else do
    let qs ← getProp rawData "questions"
    match qs with
    | .arr xs => .ok (processItems53 nowMs 0 xs)
    | _ => .ok []

end AdapterV53

namespace Engine

/-!
Embedding of `Engine` version 6.1.0 ("The Bridge Edition"),
`src/assets/js/engine.js` lines 205-640, the final engine revision.
Wall-clock reads (`Date.now()`) become explicit millisecond parameters.
-/

open AdapterV61 (Question)

/-- `state.userAnswers` slot: `{ qId, selected, timeSpent }`, with
`selected: null` modelled as `none`. -/
structure AnswerRecord where
  qId : JSValue
  selected : Option ℚ
  timeSpent : ℚ

/-- `state.timer`.  `intervalId` is the opaque timeout handle;
`startTime` is added dynamically by `startTimer`. -/
structure TimerState where
  totalSeconds : ℤ
  remaining : ℤ
  intervalId : Option ℤ
  expected : Option ℤ
  isActive : Bool
  startTime : Option ℤ

/-- The engine's mutable `state` object. -/
structure EngineState where
  questions : List Question
  totalQuestions : ℕ
  currentIndex : ℕ
  userAnswers : List (Option AnswerRecord)
  timer : TimerState
  currentQuestionStart : Option ℤ
  sessionStart : Option ℤ

/-- `toFixed(1)` followed by `parseFloat`: round to one decimal place
(ties away from the smaller value, as in `Number.prototype.toFixed`). -/
def round1 (q : ℚ) : ℚ := (round (q * 10) : ℚ) / 10

/-- `toFixed(2)` followed by `parseFloat`: round to two decimal places. -/
def round2 (q : ℚ) : ℚ := (round (q * 100) : ℚ) / 100

/-- Numeric coercion of the display-timestamp anchor: `now - null` treats
`null` as `0` in JavaScript. -/
def anchorQ (s : EngineState) : ℚ :=
  match s.currentQuestionStart with
  | some t => (t : ℚ)
  | none => 0

/-- Effect of `stopTimer` on the timer record: the pending timeout is
cleared and the timer marked inactive; idempotent. -/
def stopTimerT (t : TimerState) : TimerState :=
  { t with intervalId := none, isActive := false }

/-- `_resetState`: stops any running timer and replaces every state field
with its initial value (`sessionStart` is not touched here; `init` assigns
it afterwards). -/
def resetState (s : EngineState) : EngineState :=
  { questions := []
    totalQuestions := 0
    currentIndex := 0
    userAnswers := []
    timer := { totalSeconds := 0, remaining := 0, intervalId := none,
               expected := none, isActive := false, startTime := none }
    currentQuestionStart := none
    sessionStart := s.sessionStart }

/-- `tags.includes(needle)`: array membership by `===`, substring test on a
string, and a thrown `TypeError` on any other receiver (numbers, booleans
and plain objects have no `includes` method; so do `null`/`undefined`). -/
def tagsIncludes (v : JSValue) (needle : String) : Except Unit Bool :=
  match v with
  | .arr xs => .ok (xs.any (fun x => match x with | .str s => s == needle | _ => false))
  | .str s => .ok (jsIncludes s needle)
  | _ => .error ()

/-- The CSAT heuristic of `init`:
`firstQ.tags && (firstQ.tags.includes('math') || firstQ.tags.includes('aptitude'))`. -/
def isCsatInit (q0 : Question) : Except Unit Bool :=
  if !truthy q0.tags then .ok false
  else do
    let m ← tagsIncludes q0.tags "math"
    if m then pure true
    else tagsIncludes q0.tags "aptitude"

/-- `Engine.init(questions, mode)`, v6.1.  A `null`, non-array or empty
argument is rejected up front (`none` models `null`/non-array);
otherwise the state is fully reset and reloaded.  `CONFIG.defaults.timer`
supplies 72 s per GS question and 90 s per CSAT question. -/
def engineInit (nowMs : ℤ) (questions : Option (List Question)) (s : EngineState) :
    Except Unit (Bool × EngineState) :=
  match questions with
  | none => .ok (false, s)
  | some [] => .ok (false, s)
  | some (q0 :: qs) => do
    let s1 := resetState s
    let csat ← isCsatInit q0
    let timePerQ : ℤ := if csat then 90 else 72
    let total := ((q0 :: qs).length : ℤ) * timePerQ
    pure (true,
      { s1 with
          questions := q0 :: qs
          totalQuestions := (q0 :: qs).length
          userAnswers := List.replicate (q0 :: qs).length none
          sessionStart := some nowMs
          timer := { s1.timer with totalSeconds := total, remaining := total } })

/-- `Engine.submitAnswer(answerIndex)`, v6.1: accumulates the elapsed
display time into the slot (`?.timeSpent || 0` plus the rounded interval),
records the chosen index verbatim, and resets the display anchor.  Reading
`questions[currentIndex].id` throws when the index is out of range. -/
def submitAnswer (nowMs : ℤ) (answerIndex : ℚ) (s : EngineState) :
    Except Unit EngineState :=
  let timeSpentOnThis : ℚ := ((nowMs : ℚ) - anchorQ s) / 1000
  match s.questions.get? s.currentIndex with
  | none => .error ()
  | some q =>
    let prev : ℚ :=
      match s.userAnswers.get? s.currentIndex with
      | some (some r) => r.timeSpent
      | _ => 0
    .ok { s with
            userAnswers := s.userAnswers.set s.currentIndex
              (some { qId := q.id
                      selected := some answerIndex
                      timeSpent := prev + round1 timeSpentOnThis })
            currentQuestionStart := some nowMs }

/-- `Engine._updateTimeSpentBeforeMove`, v6.1: flush the elapsed display
time into the current question's record, creating an unanswered record when
none exists.  (Callers guarantee `currentIndex` is in range.) -/
def updateTimeSpentBeforeMove (nowMs : ℤ) (s : EngineState) : EngineState :=
  let timeSpent : ℚ := ((nowMs : ℚ) - anchorQ s) / 1000
  let existingRecord : AnswerRecord :=
    match s.userAnswers.get? s.currentIndex with
    | some (some r) => r
    | _ =>
      { qId := match s.questions.get? s.currentIndex with
               | some q => q.id
               | none => .undefined
        selected := none
        timeSpent := 0 }
  { s with
      userAnswers := s.userAnswers.set s.currentIndex
        (some { existingRecord with
                  timeSpent := existingRecord.timeSpent + round1 timeSpent }) }

/-- `Engine.nextQuestion`, v6.1: when not at the end, flush time stats,
advance the pointer and restart the per-question clock. -/
def nextQuestion (nowMs : ℤ) (s : EngineState) : Bool × EngineState :=
  if (s.currentIndex : ℤ) < (s.questions.length : ℤ) - 1 then
    let s1 := updateTimeSpentBeforeMove nowMs s
    (true, { s1 with currentIndex := s1.currentIndex + 1,
                     currentQuestionStart := some nowMs })
  else (false, s)

/-- `Engine.prevQuestion`, v6.1: when not at the start, flush time stats,
move the pointer back and restart the per-question clock. -/
def prevQuestion (nowMs : ℤ) (s : EngineState) : Bool × EngineState :=
  if 0 < s.currentIndex then
    let s1 := updateTimeSpentBeforeMove nowMs s
    (true, { s1 with currentIndex := s1.currentIndex - 1,
                     currentQuestionStart := some nowMs })
  else (false, s)

/-- `CONFIG.defaults.scoring` entry. -/
structure ScoringSchema where
  correct : ℚ
  wrong : ℚ

/-- GS marking scheme: +2.0 per correct, −0.666 per wrong. -/
def gs1Schema : ScoringSchema := { correct := 2.0, wrong := 0.666 }

/-- CSAT marking scheme: +2.5 per correct, −0.833 per wrong. -/
def csatSchema : ScoringSchema := { correct := 2.5, wrong := 0.833 }

/-- Schema selection in `calculateResult`: a quantitative/reasoning subject
id short-circuits; otherwise `questions[0]?.tags?.includes('math')` decides
(optional chaining makes a missing first question or nullish tags falsy). -/
def schemaFor (subjectId : String) (qs : List Question) : Except Unit ScoringSchema :=
  if subjectId == "csat" || subjectId == "quant" || subjectId == "reasoning" then
    .ok csatSchema
  else do
    let m : Bool ←
      match qs.head? with
      | none => pure false
      | some q0 =>
        match q0.tags with
        | .null => pure false
        | .undefined => pure false
        | t => tagsIncludes t "math"
    pure (if m then csatSchema else gs1Schema)

/-- Accumulator of the analysis loop in `calculateResult`. -/
structure Tally where
  correct : ℕ
  wrong : ℕ
  skipped : ℕ
  totalTimeSpent : ℚ
  mistakes : List (Question × ℚ)

/-- The `questions.forEach` analysis loop: a missing or `null` record, or a
`null` selection, counts as skipped; otherwise time is accumulated and the
selection is compared to `correctIndex` by strict equality (no range
check), wrong answers being collected with the user's selection. -/
def tallyFrom : List Question → List (Option AnswerRecord) → Tally
  | [], _ => { correct := 0, wrong := 0, skipped := 0, totalTimeSpent := 0, mistakes := [] }
  | q :: qs, ans =>
    let t := tallyFrom qs ans.tail
    match ans.head?.getD none with
    | none => { t with skipped := t.skipped + 1 }
    | some r =>
      match r.selected with
      | none => { t with skipped := t.skipped + 1 }
      | some sel =>
        if sel = q.correctIndex then
          { t with correct := t.correct + 1,
                   totalTimeSpent := t.totalTimeSpent + r.timeSpent }
        else
          { t with wrong := t.wrong + 1,
                   totalTimeSpent := t.totalTimeSpent + r.timeSpent,
                   mistakes := (q, sel) :: t.mistakes }

/-- The result object of `calculateResult`. -/
structure QuizResult where
  id : String
  subject : String
  score : ℚ
  totalMarks : ℚ
  correct : ℕ
  wrong : ℕ
  skipped : ℕ
  accuracy : ℚ
  totalDuration : ℚ
  mistakes : List (Question × ℚ)
  timestamp : ℤ

/-- `Engine.calculateResult(subjectId)`, v6.1: stops the timer, selects the
schema, tallies the answers, clamps the rounded raw score at zero and
returns the result object together with the post-call state. -/
def calculateResult (nowMs : ℤ) (subjectId : String) (s : EngineState) :
    Except Unit (QuizResult × EngineState) := do
  let s1 := { s with timer := stopTimerT s.timer }
  let schema ← schemaFor subjectId s1.questions
  let t := tallyFrom s1.questions s1.userAnswers
  let rawScore : ℚ := (t.correct : ℚ) * schema.correct - (t.wrong : ℚ) * schema.wrong
  let finalScore : ℚ := max 0 (round2 rawScore)
  let attempted := t.correct + t.wrong
  let accuracy : ℚ :=
    if 0 < attempted then round1 (((t.correct : ℚ) / (attempted : ℚ)) * 100) else 0
  pure
    ({ id := "res_" ++ toString nowMs
       subject := subjectId
       score := finalScore
       totalMarks := (s1.questions.length : ℚ) * schema.correct
       correct := t.correct
       wrong := t.wrong
       skipped := t.skipped
       accuracy := accuracy
       totalDuration := round1 t.totalTimeSpent
       mistakes := t.mistakes
       timestamp := nowMs },
     s1)

end Engine

namespace EngineV50

/-!
Embedding of the interaction logic of `Engine` version 5.0.0
(`src/assets/js/engine.js` lines 8-196).  This historical revision is the
only one defining `jumpTo`; its `submitAnswer` overwrites `timeSpent` and
its navigation does not flush elapsed time.
-/

open AdapterV61 (Question)
open Engine (AnswerRecord round1)

/-- The v5.0 engine state (fields used by the interaction logic). -/
structure StateV50 where
  questions : List Question
  currentIndex : ℕ
  userAnswers : List (Option AnswerRecord)
  questionStartTime : Option ℤ

/-- `Engine.submitAnswer`, v5.0: records the elapsed time since the
question was displayed, overwriting any previous `timeSpent`; the display
anchor is not reset. -/
def submitAnswer50 (nowMs : ℤ) (answerIndex : ℚ) (s : StateV50) :
    Except Unit StateV50 :=
  let anchor : ℚ := match s.questionStartTime with | some t => (t : ℚ) | none => 0
  let timeSpentOnThis : ℚ := ((nowMs : ℚ) - anchor) / 1000
  match s.questions.get? s.currentIndex with
  | none => .error ()
  | some q =>
    .ok { s with
            userAnswers := s.userAnswers.set s.currentIndex
              (some { qId := q.id
                      selected := some answerIndex
                      timeSpent := round1 timeSpentOnThis }) }

/-- `Engine.nextQuestion`, v5.0: advances the pointer and resets the metric
timer without flushing elapsed time. -/
def nextQuestion50 (nowMs : ℤ) (s : StateV50) : Bool × StateV50 :=
  if (s.currentIndex : ℤ) < (s.questions.length : ℤ) - 1 then
    (true, { s with currentIndex := s.currentIndex + 1,
                    questionStartTime := some nowMs })
  else (false, s)

/-- `Engine.prevQuestion`, v5.0. -/
def prevQuestion50 (nowMs : ℤ) (s : StateV50) : Bool × StateV50 :=
  if 0 < s.currentIndex then
    (true, { s with currentIndex := s.currentIndex - 1,
                    questionStartTime := some nowMs })
  else (false, s)

/-- `Engine.jumpTo(index)`, v5.0 (the only revision providing `jumpTo`):
when the target is in bounds it moves the pointer and resets the display
timestamp — without flushing the elapsed time into any record. -/
def jumpTo (index : ℤ) (nowMs : ℤ) (s : StateV50) : Bool × StateV50 :=
  if 0 ≤ index ∧ index < (s.questions.length : ℤ) then
    (true, { s with currentIndex := index.toNat,
                    questionStartTime := some nowMs })
  else (false, s)

end EngineV50

namespace TimerModel

/-!
Execution model of the drift-corrected timer of `Engine.startTimer` /
`Engine.stopTimer`, v6.1 (`src/assets/js/engine.js` lines 357-417).  The
self-rescheduling `step` closure is modelled by an explicit step function;
`pending` is the absolute wall-clock time at which the scheduled timeout
fires (`none`: no timeout scheduled).  Running with no drift means every
scheduled callback fires exactly at its scheduled instant.
-/

/-- Timer fields read and written by the `step` closure. -/
structure TimerRunState where
  remaining : ℤ
  expected : ℤ
  isActive : Bool
  pending : Option ℤ
deriving DecidableEq

/-- `Engine.startTimer` at wall-clock time `t0` with `remaining` seconds on
the clock: marks the timer active, sets `expected = now + 1000` and
schedules the first `step` 1000 ms out. -/
def startTimerRun (t0 : ℤ) (remaining : ℤ) : TimerRunState :=
  { remaining := remaining, expected := t0 + 1000, isActive := true,
    pending := some (t0 + 1000) }

/-- One execution of the `step` closure at wall-clock time `now`: bail out
if stopped; compute the drift `dt`, re-anchor `expected` if the browser
slept (`dt > 1000`); decrement and emit `onTick(remaining)`; at zero, stop
and emit `onExpire` once; otherwise advance `expected` and schedule the
next step `max(0, 1000 - dt)` ms out.  Returns the tick payloads, the
number of `onExpire` calls, and the new timer state. -/
def timerStepRun (now : ℤ) (s : TimerRunState) : List ℤ × ℕ × TimerRunState :=
  if !s.isActive then ([], 0, s)
  else
    let dt := now - s.expected
    let expected1 := if 1000 < dt then now else s.expected
    let remaining1 := s.remaining - 1
    if remaining1 ≤ 0 then
      ([remaining1], 1,
       { remaining := remaining1, expected := expected1, isActive := false,
         pending := none })
    else
      ([remaining1], 0,
       { remaining := remaining1, expected := expected1 + 1000, isActive := true,
         pending := some (now + max 0 (1000 - dt)) })

/-- Drift-free execution: repeatedly fire the scheduled step exactly at its
scheduled instant, until no step is pending (or the fuel runs out).
Accumulates all tick payloads and `onExpire` calls in order. -/
def timerRunNoDrift : ℕ → TimerRunState → List ℤ × ℕ × TimerRunState
  | 0, s => ([], 0, s)
  | fuel + 1, s =>
    match s.pending with
    | none => ([], 0, s)
    | some t =>
      let r1 := timerStepRun t { s with pending := none }
      let r2 := timerRunNoDrift fuel r1.2.2
      (r1.1 ++ r2.1, r1.2.1 + r2.2.1, r2.2.2)

end TimerModel

/-- Accumulated time of an optional answer slot (`?.timeSpent || 0`). -/
def recTime : Option Engine.AnswerRecord → ℚ
  | some r => r.timeSpent
  | none => 0

/-- Selection stored in an optional answer slot (`null` when the slot is
empty or unanswered). -/
def recSel : Option Engine.AnswerRecord → Option ℚ
  | some r => r.selected
  | none => none

/-- Question id stored in an optional answer slot, falling back to the
current question's id when the slot is empty. -/
def recQId (o : Option Engine.AnswerRecord) (q : AdapterV61.Question) : JSValue :=
  match o with
  | some r => r.qId
  | none => q.id

/-!
General lemmas about the embedded operations, followed by one theorem per
specification claim.
-/

/-- Witness for C1: one question, one wrong answer under the GS schema
(raw score −0.666) is reported as exactly 0. -/
def witQ : AdapterV61.Question :=
  { id := .str "q1", text := .str "t", options := [.str "a", .str "b"],
    correctIndex := 0, topic := .str "General", difficulty := .str "Moderate",
    tags := .arr [],
    explanation := { core := .str "e", expert_note := .null, elimination := .null } }

/-- Idle timer record used by concrete states. -/
def witTimer : Engine.TimerState :=
  { totalSeconds := 0, remaining := 0, intervalId := none, expected := none,
    isActive := false, startTime := none }

/-- Concrete session state with a single wrongly-answered question. -/
def witState : Engine.EngineState :=
  { questions := [witQ], totalQuestions := 1, currentIndex := 0,
    userAnswers := [some { qId := .str "q1", selected := some 1, timeSpent := 0 }],
    timer := witTimer, currentQuestionStart := none, sessionStart := none }

/-- The result computed on `witState`. -/
def witRes : Engine.QuizResult :=
  { id := "res_0", subject := "polity", score := 0, totalMarks := 2,
    correct := 0, wrong := 1, skipped := 0, accuracy := 0, totalDuration := 0,
    mistakes := [(witQ, 1)], timestamp := 0 }

/-- Raw question item whose answer field is `a`, used to probe the
answer-interpretation logic of `_normalizeItem`. -/
def itemWithAnswer (a : JSValue) : JSValue :=
  .obj [("question", .str "Capital?"), ("options", .arr [.str "x", .str "y"]),
        ("answer", a)]

/-- Raw item whose numeric answer field is out of range for its two
options. -/
def cexItemC2 : JSValue :=
  .obj [("question", .str "Q"), ("options", .arr [.str "a", .str "b"]),
        ("answer", .num 5)]

/-- The question v6.1 `normalize` produces for `cexItemC2`. -/
def cexQC2 : AdapterV61.Question :=
  { id := .str (AdapterV61.genId 0 0), text := .str "Q",
    options := [.str "a", .str "b"], correctIndex := 5,
    topic := .str "General", difficulty := .str "Moderate", tags := .arr [],
    explanation := AdapterV61.defaultExpl }

/-- Second concrete question, used by navigation scenarios. -/
def witQ2 : AdapterV61.Question :=
  { id := .str "q2", text := .str "t2", options := [.str "a", .str "b"],
    correctIndex := 1, topic := .str "General", difficulty := .str "Moderate",
    tags := .arr [],
    explanation := { core := .str "e", expert_note := .null, elimination := .null } }

/-- Fresh two-question session displayed since time 0. -/
def c4Start : Engine.EngineState :=
  { questions := [witQ, witQ2], totalQuestions := 2, currentIndex := 0,
    userAnswers := List.replicate 2 none, timer := witTimer,
    currentQuestionStart := some 0, sessionStart := none }

/-- State after the first submit of the C4 scenario. -/
def c4s1 : Engine.EngineState :=
  match Engine.submitAnswer 3000 1 c4Start with
  | .ok s => s
  | .error _ => c4Start

/-- State after submit, away, back, submit. -/
def c4s4 : Engine.EngineState :=
  match Engine.submitAnswer 13000 0
      ((Engine.prevQuestion 9000 (Engine.nextQuestion 5000 c4s1).2).2) with
  | .ok s => s
  | .error _ => c4Start

/-- Answer record of question 0 at the end of the C4 scenario. -/
def c4rec : Engine.AnswerRecord :=
  match c4s4.userAnswers.get? 0 with
  | some (some r) => r
  | _ => { qId := .null, selected := none, timeSpent := 0 }

/-- Fresh v5.0 two-question state displayed since time 0, nothing
answered. -/
def c5v50 : EngineV50.StateV50 :=
  { questions := [witQ, witQ2], currentIndex := 0, userAnswers := [none, none],
    questionStartTime := some 0 }

/-- Question whose tags value is a truthy non-array, non-string —
`tags.includes` throws on it. -/
def badTagsQ : AdapterV61.Question :=
  { witQ with tags := .num 1 }

/-- A dirty state with a running timer and stale answers, for observing the
init reset. -/
def dirtyState : Engine.EngineState :=
  { questions := [witQ2], totalQuestions := 1, currentIndex := 0,
    userAnswers := [some { qId := .str "q2", selected := some 1, timeSpent := 5 }],
    timer := { totalSeconds := 100, remaining := 7, intervalId := some 42,
               expected := some 1, isActive := true, startTime := some 0 },
    currentQuestionStart := some 3, sessionStart := some 1 }

/-- Counterexample to C10 as stated: a recorded selection outside
`[0, options.length)` is counted *correct* when it equals an equally
out-of-range `correctIndex` — classification is equality, not a range
check. -/
def oobQ : AdapterV61.Question :=
  { witQ with correctIndex := 5 }

/-- Answer record selecting the out-of-range index 5. -/
def oobRec : Engine.AnswerRecord :=
  { qId := .str "q1", selected := some 5, timeSpent := 2 }

/-- State produced by submitting the invalid index −1. -/
def c10submit : Engine.EngineState :=
  match Engine.submitAnswer 1000 (-1) c4Start with
  | .ok s => s
  | .error _ => c4Start

/-- Concrete input for the idempotence witness. -/
def c9raw : JSValue :=
  .arr [itemWithAnswer (.str "B"),
        .obj [("Question", .str "Year?"), ("choices", .arr [.str "1", .str "2", .str "3"]),
              ("answer", .num 2), ("topic", .str "History"),
              ("explanation", .str "because"), ("notes", .str "tip")]]

/-- The list v6.1 `normalize` produces for `c9raw`. -/
def c9out : List AdapterV61.Question :=
  match AdapterV61.normalize 0 c9raw with
  | .ok l => l
  | .error _ => []

/-- Rounding to one decimal is exact on a whole number of tenths: an
interval that is a whole number of hundred-millisecond units loses nothing
to `toFixed(1)`. -/
theorem round1_exact (m : ℤ) (h : (100 : ℤ) ∣ m) :
    Engine.round1 ((m : ℚ) / 1000) = (m : ℚ) / 1000 := by
  obtain ⟨k, rfl⟩ := h
  unfold Engine.round1
  have h1 : ((100 * k : ℤ) : ℚ) / 1000 * 10 = (k : ℚ) := by
    push_cast
    ring
  rw [h1, round_intCast]
  push_cast
  ring

/-- Rounding to two decimals maps a negative raw score to a non-positive
value. -/
theorem round2_nonpos {q : ℚ} (h : q < 0) : Engine.round2 q ≤ 0 := by
  unfold Engine.round2
  have h1 : round (q * 100) ≤ 0 := by
    rw [round_eq]
    have h2 : ⌊q * 100 + 1 / 2⌋ < 1 := by
      rw [Int.floor_lt]
      push_cast
      nlinarith
    omega
  have h3 : ((round (q * 100) : ℤ) : ℚ) ≤ 0 := by
    exact_mod_cast h1
  linarith

/-- C1.  For every session state and subject on which `calculateResult`
returns, the reported score is `max(0, round₂(correct·correctMarks −
wrong·wrongMarks))` under the selected schema; it is never negative, and
whenever the accumulated penalty exceeds the accumulated reward the
reported score is exactly 0. -/
theorem calculateResult_score_clamped (nowMs : ℤ) (subj : String)
    (s : Engine.EngineState) (res : Engine.QuizResult) (s2 : Engine.EngineState)
    (sch : Engine.ScoringSchema)
    (hres : Engine.calculateResult nowMs subj s = .ok (res, s2))
    (hsch : Engine.schemaFor subj s.questions = .ok sch) :
    res.score =
      max 0 (Engine.round2 ((res.correct : ℚ) * sch.correct - (res.wrong : ℚ) * sch.wrong)) ∧
    0 ≤ res.score ∧
    ((res.correct : ℚ) * sch.correct < (res.wrong : ℚ) * sch.wrong → res.score = 0) := by
  simp only [Engine.calculateResult] at hres
  rw [hsch] at hres
  simp only [bind, Except.bind, pure, Except.pure, Except.ok.injEq, Prod.mk.injEq] at hres
  obtain ⟨hr, _⟩ := hres
  subst hr
  refine ⟨rfl, le_max_left 0 _, fun hlt => ?_⟩
  have hneg :
      ((Engine.tallyFrom s.questions s.userAnswers).correct : ℚ) * sch.correct -
        ((Engine.tallyFrom s.questions s.userAnswers).wrong : ℚ) * sch.wrong < 0 := by
    simpa using sub_neg.mpr hlt
  have h0 := round2_nonpos hneg
  simpa using max_eq_left h0

theorem calculateResult_score_clamped_witness :
    Engine.calculateResult 0 "polity" witState = .ok (witRes, witState) ∧
    witRes.score = 0 ∧ 0 ≤ witRes.score := by
  have hres : Engine.calculateResult 0 "polity" witState = .ok (witRes, witState) := by
    simp only [Engine.calculateResult, Engine.schemaFor, Engine.tallyFrom,
      Engine.stopTimerT, witState, witQ, witRes, witTimer, Engine.gs1Schema,
      Engine.tagsIncludes]
    rw [if_neg (by decide)]
    norm_num [Engine.round2, Engine.round1, round_eq, max_def]
    rfl
  have hsch : Engine.schemaFor "polity" witState.questions = .ok Engine.gs1Schema := by
    simp only [Engine.schemaFor, witState, witQ, Engine.tagsIncludes]
    rw [if_neg (by decide)]
    rfl
  have h := calculateResult_score_clamped 0 "polity" witState witRes witState
    Engine.gs1Schema hres hsch
  refine ⟨hres, h.2.2 ?_, h.2.1⟩
  norm_num [witRes, Engine.gs1Schema]

/-- C3.  Evaluation of the v6.1 answer-letter mapping: `"B"` and `"b"`
normalize to `correctIndex = 1` and a numeric answer is used directly, but
the string Option B normalizes to `0` — the code reads only the first
character (an unmapped O), contradicting its own comment, which promises to
convert both the bare letter B and the phrase Option B to index 1.
Unrecognized strings default to 0. -/
theorem answer_letter_mapping_eval :
    (AdapterV61.normalize 0 (.arr [itemWithAnswer (.str "B")])).map
        (List.map AdapterV61.Question.correctIndex) = .ok [1] ∧
    (AdapterV61.normalize 0 (.arr [itemWithAnswer (.str "b")])).map
        (List.map AdapterV61.Question.correctIndex) = .ok [1] ∧
    (AdapterV61.normalize 0 (.arr [itemWithAnswer (.str "Option B")])).map
        (List.map AdapterV61.Question.correctIndex) = .ok [0] ∧
    (AdapterV61.normalize 0 (.arr [itemWithAnswer (.num 2)])).map
        (List.map AdapterV61.Question.correctIndex) = .ok [2] ∧
    (AdapterV61.normalize 0 (.arr [itemWithAnswer (.str "xyz")])).map
        (List.map AdapterV61.Question.correctIndex) = .ok [0] :=
  ⟨rfl, rfl, rfl, rfl, rfl⟩

/-- Truthiness of the generated fallback id: it starts with a q. -/
theorem truthy_genId (n i : ℕ) : truthy (.str (AdapterV61.genId n i)) = true := by
  simp only [truthy, AdapterV61.genId, Bool.not_eq_true']
  simp [String.data_append]

/-- Shape invariant of the step-4 explanation record: a truthy core and
null-or-truthy expert note and elimination. -/
theorem explanationFor_shape {q rawExpl : JSValue} {ex : AdapterV61.Explanation}
    (h : AdapterV61.explanationFor q rawExpl = .ok ex) :
    truthy ex.core = true ∧
    (ex.expert_note = .null ∨ truthy ex.expert_note = true) ∧
    (ex.elimination = .null ∨ truthy ex.elimination = true) := by
  unfold AdapterV61.explanationFor at h
  split at h
  case isTrue htr =>
    cases rawExpl with
    | str s =>
      simp only [bind, Except.bind] at h
      cases h5 : AdapterV61.getVal q ["notes", "remark", "tip"] with
      | error e => rw [h5] at h; exact absurd h (by simp [pure, Except.pure])
      | ok notes =>
        rw [h5] at h
        simp only [pure, Except.pure, Except.ok.injEq] at h
        subst h
        refine ⟨htr, ?_, Or.inl rfl⟩
        by_cases hn : truthy notes = true
        · simp [hn]
        · simp [hn]
    | obj kvs =>
      simp only [bind, Except.bind] at h
      cases hc : AdapterV61.getVal (.obj kvs) ["core", "text", "main"] with
      | error e => rw [hc] at h; exact absurd h (by simp [pure, Except.pure])
      | ok c =>
        rw [hc] at h
        cases he : AdapterV61.getVal (.obj kvs) ["expert_note", "note", "extra"] with
        | error e => rw [he] at h; exact absurd h (by simp [pure, Except.pure])
        | ok en =>
          rw [he] at h
          cases hl : AdapterV61.getVal (.obj kvs) ["elimination", "trick"] with
          | error e => rw [hl] at h; exact absurd h (by simp [pure, Except.pure])
          | ok el =>
            rw [hl] at h
            simp only [pure, Except.pure, Except.ok.injEq] at h
            subst h
            refine ⟨?_, ?_, ?_⟩
            · by_cases htc : truthy c = true
              · simp [htc]
              · rw [if_neg htc]
                exact (by decide : truthy AdapterV61.defaultExpl.core = true)
            · by_cases hte : truthy en = true
              · simp [hte]
              · simp [hte]
            · by_cases htl : truthy el = true
              · simp [htl]
              · simp [htl]
    | arr xs =>
      simp only [bind, Except.bind] at h
      cases hc : AdapterV61.getVal (.arr xs) ["core", "text", "main"] with
      | error e => rw [hc] at h; exact absurd h (by simp [pure, Except.pure])
      | ok c =>
        rw [hc] at h
        cases he : AdapterV61.getVal (.arr xs) ["expert_note", "note", "extra"] with
        | error e => rw [he] at h; exact absurd h (by simp [pure, Except.pure])
        | ok en =>
          rw [he] at h
          cases hl : AdapterV61.getVal (.arr xs) ["elimination", "trick"] with
          | error e => rw [hl] at h; exact absurd h (by simp [pure, Except.pure])
          | ok el =>
            rw [hl] at h
            simp only [pure, Except.pure, Except.ok.injEq] at h
            subst h
            refine ⟨?_, ?_, ?_⟩
            · by_cases htc : truthy c = true
              · simp [htc]
              · rw [if_neg htc]
                exact (by decide : truthy AdapterV61.defaultExpl.core = true)
            · by_cases hte : truthy en = true
              · simp [hte]
              · simp [hte]
            · by_cases htl : truthy el = true
              · simp [htl]
              · simp [htl]
    | null => simp [truthy] at htr
    | undefined => simp [truthy] at htr
    | bool b =>
      simp only [pure, Except.pure, Except.ok.injEq] at h
      subst h
      exact ⟨by decide, Or.inl rfl, Or.inl rfl⟩
    | num r =>
      simp only [pure, Except.pure, Except.ok.injEq] at h
      subst h
      exact ⟨by decide, Or.inl rfl, Or.inl rfl⟩
  case isFalse =>
    simp only [pure, Except.pure, Except.ok.injEq] at h
    subst h
    exact ⟨by decide, Or.inl rfl, Or.inl rfl⟩

/-- Shape invariant of `_normalizeItem` v6.1: every emitted question has a
truthy id, text, topic, difficulty and tags, at least two options, and a
well-shaped explanation record. -/
theorem normalizeItem_shape {n : ℕ} {q : JSValue} {i : ℕ} {Q : AdapterV61.Question}
    (h : AdapterV61.normalizeItem n q i = .ok (some Q)) : AdapterV61.NormalizedQ Q := by
  simp only [AdapterV61.normalizeItem, bind, Except.bind] at h
  cases h1 : AdapterV61.getVal q ["question", "text", "q", "title", "statement"] with
  | error e => rw [h1] at h; exact absurd h (by simp)
  | ok qText =>
  rw [h1] at h
  cases h2 : AdapterV61.getVal q ["options", "choices", "answers", "alternatives"] with
  | error e => rw [h2] at h; exact absurd h (by simp)
  | ok qOptions =>
  rw [h2] at h
  cases qOptions with
  | arr opts =>
    simp only at h
    by_cases hv : (!truthy qText || decide (opts.length < 2)) = true
    · rw [if_pos hv] at h; exact absurd h (by simp [pure, Except.pure])
    · rw [if_neg hv] at h
      simp only [Bool.or_eq_true, Bool.not_eq_true', decide_eq_true_eq, not_or,
        Bool.not_eq_false] at hv
      obtain ⟨htext, hlen⟩ := hv
      cases h3 : AdapterV61.getVal q ["answer", "correct", "correctIndex", "ans"] with
      | error e => rw [h3] at h; exact absurd h (by simp)
      | ok rawAns =>
      rw [h3] at h
      cases h4 : AdapterV61.getVal q ["explanation", "solution", "rationale", "desc"] with
      | error e => rw [h4] at h; exact absurd h (by simp)
      | ok rawExpl =>
      rw [h4] at h
      simp only at h
      cases h5 : AdapterV61.explanationFor q rawExpl with
      | error e => rw [h5] at h; exact absurd h (by simp)
      | ok expl =>
      rw [h5] at h
      cases h6 : getProp q "id" with
      | error e => rw [h6] at h; exact absurd h (by simp)
      | ok idv =>
      rw [h6] at h
      cases h7 : AdapterV61.getVal q ["topic", "subject", "category"] with
      | error e => rw [h7] at h; exact absurd h (by simp)
      | ok topicv =>
      rw [h7] at h
      cases h8 : AdapterV61.getVal q ["difficulty", "level"] with
      | error e => rw [h8] at h; exact absurd h (by simp)
      | ok diffv =>
      rw [h8] at h
      cases h9 : AdapterV61.getVal q ["tags", "keywords"] with
      | error e => rw [h9] at h; exact absurd h (by simp)
      | ok tagsv =>
      rw [h9] at h
      simp only [pure, Except.pure, Except.ok.injEq, Option.some.injEq] at h
      subst h
      obtain ⟨hc, he, hl⟩ := explanationFor_shape h5
      simp only [AdapterV61.NormalizedQ]
      refine ⟨?_, htext, by omega, ?_, ?_, ?_, hc, he, hl⟩
      · by_cases hid : truthy idv = true
        · simp [hid]
        · rw [if_neg hid]; exact truthy_genId n i
      · by_cases ht : truthy topicv = true
        · simp [ht]
        · rw [if_neg ht]; decide
      · by_cases hd : truthy diffv = true
        · simp [hd]
        · rw [if_neg hd]; decide
      · by_cases htg : truthy tagsv = true
        · simp [htg]
        · rw [if_neg htg]; decide
  | null => exact absurd h (by simp [pure, Except.pure])
  | undefined => exact absurd h (by simp [pure, Except.pure])
  | bool b => exact absurd h (by simp [pure, Except.pure])
  | num r => exact absurd h (by simp [pure, Except.pure])
  | str s => exact absurd h (by simp [pure, Except.pure])
  | obj kvs => exact absurd h (by simp [pure, Except.pure])

/-- Every question produced by the v6.1 processing loop satisfies the
shape invariant. -/
theorem processItemsFrom_shape {n : ℕ} {items : List JSValue} {i : ℕ}
    {l : List AdapterV61.Question}
    (h : AdapterV61.processItemsFrom n i items = .ok l) :
    ∀ Q ∈ l, AdapterV61.NormalizedQ Q := by
  induction items generalizing i l with
  | nil =>
    simp only [AdapterV61.processItemsFrom, Except.ok.injEq] at h
    subst h
    simp
  | cons q rest ih =>
    simp only [AdapterV61.processItemsFrom, bind, Except.bind] at h
    cases hq : AdapterV61.normalizeItem n q i with
    | error e => rw [hq] at h; exact absurd h (by simp)
    | ok c =>
      rw [hq] at h
      simp only at h
      cases hr : AdapterV61.processItemsFrom n (i + 1) rest with
      | error e => rw [hr] at h; cases c <;> exact absurd h (by simp)
      | ok others =>
        rw [hr] at h
        cases c with
        | none =>
          simp only [pure, Except.pure, Except.ok.injEq] at h
          subst h
          exact ih hr
        | some x =>
          simp only [pure, Except.pure, Except.ok.injEq] at h
          subst h
          intro Q hQ
          rcases List.mem_cons.mp hQ with hx | hm
          · subst hx; exact normalizeItem_shape hq
          · exact ih hr Q hm

/-- C2 (amended).  Every Question returned by v6.1 `normalize` has truthy
text and at least two options — items with fewer than two options or
missing text never yield an output Question — but `correctIndex` is not
range-checked (see the counterexample: a numeric answer field is copied
verbatim even when it lies outside `[0, options.length)`). -/
theorem normalize_output_shape (nowMs : ℕ) (raw : JSValue)
    (l : List AdapterV61.Question) (h : AdapterV61.normalize nowMs raw = .ok l) :
    ∀ Q ∈ l, truthy Q.text = true ∧ 2 ≤ Q.options.length := by
  unfold AdapterV61.normalize at h
  split at h
  · simp only [Except.ok.injEq] at h
    subst h
    simp
  · simp only at h
    split at h
    · simp only [Except.ok.injEq] at h
      subst h
      simp
    · intro Q hQ
      obtain ⟨_, ht, hlen, _⟩ := processItemsFrom_shape h Q hQ
      exact ⟨ht, hlen⟩

/-- Counterexample to C2 as stated: the item with `answer: 5` and two
options survives normalization with `correctIndex = 5`, which is not in
`[0, options.length)`. -/
theorem normalize_correctIndex_unbounded :
    AdapterV61.normalize 0 (.arr [cexItemC2]) = .ok [cexQC2] ∧
    ¬(cexQC2.correctIndex < (cexQC2.options.length : ℚ)) := by
  constructor
  · rfl
  · norm_num [cexQC2]

theorem normalize_output_shape_witness :
    truthy cexQC2.text = true ∧ 2 ≤ cexQC2.options.length :=
  normalize_output_shape 0 (.arr [cexItemC2]) [cexQC2] rfl cexQC2 (by simp)

/-- When no top-level field of an object holds an array, the v6.1 wrapper
detection finds no source array. -/
theorem findSourceArray_obj_no_array {kvs : List (String × JSValue)}
    (hnone : ∀ kv ∈ kvs, isArr kv.2 = false) :
    AdapterV61.findSourceArray (.obj kvs) = [] := by
  have hprop : ∀ k, isArr (propOf (.obj kvs) k) = false := by
    intro k
    unfold propOf
    cases hf : (jsEntries (.obj kvs)).find? (fun kv => kv.1 == k) with
    | none => rfl
    | some kv => exact hnone kv (List.mem_of_find?_eq_some hf)
  have hscan : (jsEntries (.obj kvs)).find? (fun kv => isArr kv.2) = none := by
    apply List.find?_eq_none.mpr
    intro kv hm
    simp [hnone kv hm]
  unfold AdapterV61.findSourceArray
  simp only
  cases hq : propOf (.obj kvs) "questions" with
  | arr xs => exact absurd (hprop "questions") (by rw [hq]; simp [isArr])
  | _ =>
    simp only
    cases hd : propOf (.obj kvs) "data" with
    | arr xs => exact absurd (hprop "data") (by rw [hd]; simp [isArr])
    | _ => simp [hscan]

/-- C7 (amended).  The v5.3 `normalize` never throws on any input (its
per-item try/catch absorbs item-level TypeErrors), and the v6.1 `normalize`
returns an empty list without throwing on falsy input and on an object
containing no array anywhere; but the v6.1 revision dropped the per-item
try/catch, so an array containing a null item makes it throw (see the
counterexample). -/
theorem normalize_error_recovery (nowMs : ℕ) (raw : JSValue) :
    (∃ l, AdapterV53.normalize53 nowMs raw = .ok l) ∧
    (truthy raw = false → AdapterV61.normalize nowMs raw = .ok []) ∧
    (∀ kvs, raw = .obj kvs → (∀ kv ∈ kvs, isArr kv.2 = false) →
      AdapterV61.normalize nowMs raw = .ok []) := by
  refine ⟨?_, ?_, ?_⟩
  · unfold AdapterV53.normalize53
    cases raw with
    | null => exact ⟨[], rfl⟩
    | undefined => exact ⟨[], rfl⟩
    | bool b =>
      cases b with
      | false => exact ⟨[], rfl⟩
      | true => exact ⟨[], rfl⟩
    | num q =>
      by_cases h0 : q = 0
      · subst h0; exact ⟨[], rfl⟩
      · refine ⟨[], ?_⟩
        simp [truthy, h0, isArr, getProp, bind, Except.bind, propOf, jsEntries]
    | str s =>
      by_cases h0 : s.data.isEmpty = true
      · refine ⟨[], ?_⟩
        simp [truthy, h0]
      · refine ⟨[], ?_⟩
        simp [truthy, h0, isArr, getProp, bind, Except.bind, propOf, jsEntries]
    | arr xs =>
      refine ⟨AdapterV53.processItems53 nowMs 0 xs, ?_⟩
      simp [truthy, isArr, asArr]
    | obj kvs =>
      cases hv : propOf (.obj kvs) "questions" with
      | arr xs =>
        exact ⟨AdapterV53.processItems53 nowMs 0 xs,
          by simp [truthy, isArr, getProp, bind, Except.bind, hv]⟩
      | null => exact ⟨[], by simp [truthy, isArr, getProp, bind, Except.bind, hv]⟩
      | undefined => exact ⟨[], by simp [truthy, isArr, getProp, bind, Except.bind, hv]⟩
      | bool b => exact ⟨[], by simp [truthy, isArr, getProp, bind, Except.bind, hv]⟩
      | num r => exact ⟨[], by simp [truthy, isArr, getProp, bind, Except.bind, hv]⟩
      | str t => exact ⟨[], by simp [truthy, isArr, getProp, bind, Except.bind, hv]⟩
      | obj kvs2 => exact ⟨[], by simp [truthy, isArr, getProp, bind, Except.bind, hv]⟩
  · intro ht
    unfold AdapterV61.normalize
    simp [ht]
  · intro kvs hraw hnone
    subst hraw
    unfold AdapterV61.normalize
    rw [findSourceArray_obj_no_array hnone]
    simp [truthy]

/-- Counterexample to C7 as stated: in v6.1 a located array whose item is
`null` makes `_normalizeItem` call `Object.keys(null)`, and the TypeError
propagates out of `normalize` because the v6.1 loop has no try/catch. -/
theorem normalize_v61_throws_on_null_item :
    AdapterV61.normalize 0 (.arr [.null]) = .error () := rfl

theorem normalize_error_recovery_witness :
    AdapterV61.normalize 0 .null = .ok [] ∧
    AdapterV61.normalize 0 (.obj [("subject", .str "x")]) = .ok [] ∧
    AdapterV53.normalize53 0 .null = .ok [] := by
  refine ⟨(normalize_error_recovery 0 .null).2.1 rfl,
    (normalize_error_recovery 0 (.obj [("subject", .str "x")])).2.2 _ rfl ?_, rfl⟩
  intro kv hm
  rcases List.mem_singleton.mp hm with rfl
  rfl

/-- A run with nothing scheduled does nothing. -/
theorem timerRun_none (f : ℕ) (s : TimerModel.TimerRunState) (hp : s.pending = none) :
    TimerModel.timerRunNoDrift f s = ([], 0, s) := by
  cases f with
  | zero => rfl
  | succ f => simp [TimerModel.timerRunNoDrift, hp]

/-- Countdown lemma for the drift-free timer run: from an active timer with
`n ≥ 1` seconds remaining and the next step scheduled at its expected
instant, the run emits the ticks `n-1, ..., 0`, fires expiry exactly once,
and finishes stopped with nothing scheduled. -/
theorem timerRun_countdown (fuel : ℕ) :
    ∀ (n : ℕ) (e : ℤ), 1 ≤ n → n ≤ fuel →
    TimerModel.timerRunNoDrift fuel
      { remaining := (n : ℤ), expected := e, isActive := true, pending := some e } =
      ((List.range n).reverse.map (fun k => (k : ℤ)), 1,
       { remaining := 0, expected := e + 1000 * ((n : ℤ) - 1),
         isActive := false, pending := none }) := by
  induction fuel with
  | zero => intro n e h1 hf; omega
  | succ f ih =>
    intro n e h1 hf
    obtain ⟨m, rfl⟩ : ∃ m, n = m + 1 := ⟨n - 1, by omega⟩
    simp only [TimerModel.timerRunNoDrift, TimerModel.timerStepRun, Bool.not_true,
      Bool.false_eq_true, if_false, sub_self]
    rw [if_neg (by norm_num : ¬((1000 : ℤ) < 0))]
    by_cases hm : m = 0
    · subst hm
      rw [if_pos (by norm_num : ((0 + 1 : ℕ) : ℤ) - 1 ≤ 0)]
      rw [timerRun_none f _ rfl]
      norm_num
      decide
    · rw [if_neg (by push_cast; omega : ¬(((m + 1 : ℕ) : ℤ) - 1 ≤ 0))]
      have hcast : ((m + 1 : ℕ) : ℤ) - 1 = ((m : ℕ) : ℤ) := by push_cast; ring
      simp only [hcast, sub_zero]
      rw [show ((0 : ℤ) ⊔ 1000) = 1000 from by norm_num]
      rw [ih m (e + 1000) (by omega) (by omega), List.range_succ]
      simp only [List.reverse_append, List.reverse_singleton, List.singleton_append,
        List.map_cons, Prod.mk.injEq, TimerModel.TimerRunState.mk.injEq]
      refine ⟨by simp, trivial, trivial, by ring, trivial, trivial⟩

/-- C6.  Starting the v6.1 timer with `totalSeconds = n ≥ 1` on the clock
and running with no drift invokes `onTick` exactly `n` times, with the
decremented remaining counts `n-1, ..., 0`, then invokes `onExpire` exactly
once when remaining reaches 0, after which the timer is stopped and no
further tick is scheduled — regardless of how much extra schedule budget
(`fuel ≥ n`) the run is given. -/
theorem timer_tick_count (n fuel : ℕ) (t0 : ℤ) (h1 : 1 ≤ n) (hf : n ≤ fuel) :
    TimerModel.timerRunNoDrift fuel (TimerModel.startTimerRun t0 (n : ℤ)) =
      ((List.range n).reverse.map (fun k => (k : ℤ)), 1,
       { remaining := 0, expected := t0 + 1000 + 1000 * ((n : ℤ) - 1),
         isActive := false, pending := none }) :=
  timerRun_countdown fuel n (t0 + 1000) h1 hf

theorem timer_tick_count_witness :
    TimerModel.timerRunNoDrift 7 (TimerModel.startTimerRun 0 5) =
      ([4, 3, 2, 1, 0], 1,
       { remaining := 0, expected := 5000, isActive := false, pending := none }) := by
  have h := timer_tick_count 5 7 0 (by norm_num) (by norm_num)
  rw [show ((5 : ℕ) : ℤ) = 5 from rfl] at h
  rw [h]
  decide


/-- Characterization of `submitAnswer` v6.1 on a state whose current
question and answer slot are resolved: the slot receives the chosen index
verbatim and the accumulated time, and the display anchor is reset. -/
theorem submitAnswer_eq (now : ℤ) (idx : ℚ) (s : Engine.EngineState)
    (q : AdapterV61.Question) (orec : Option Engine.AnswerRecord)
    (hq : s.questions.get? s.currentIndex = some q)
    (ho : s.userAnswers.get? s.currentIndex = some orec) :
    Engine.submitAnswer now idx s = .ok
      { s with
          userAnswers := s.userAnswers.set s.currentIndex
            (some { qId := q.id, selected := some idx,
                    timeSpent := recTime orec +
                      Engine.round1 (((now : ℚ) - Engine.anchorQ s) / 1000) }),
          currentQuestionStart := some now } := by
  simp only [Engine.submitAnswer, hq, ho]
  cases orec <;> rfl

/-- Characterization of `_updateTimeSpentBeforeMove` v6.1: the current
slot's accumulated time grows by the rounded elapsed interval; an empty
slot becomes an unanswered record first. -/
theorem updateTime_eq (now : ℤ) (s : Engine.EngineState)
    (q : AdapterV61.Question) (orec : Option Engine.AnswerRecord)
    (hq : s.questions.get? s.currentIndex = some q)
    (ho : s.userAnswers.get? s.currentIndex = some orec) :
    Engine.updateTimeSpentBeforeMove now s =
      { s with
          userAnswers := s.userAnswers.set s.currentIndex
            (some { qId := recQId orec q, selected := recSel orec,
                    timeSpent := recTime orec +
                      Engine.round1 (((now : ℚ) - Engine.anchorQ s) / 1000) }) } := by
  simp only [Engine.updateTimeSpentBeforeMove, hq, ho]
  cases orec <;> rfl

/-- Characterization of `nextQuestion` v6.1 when a next question exists:
flush, advance, reset the anchor. -/
theorem nextQuestion_eq (now : ℤ) (s : Engine.EngineState)
    (q : AdapterV61.Question) (orec : Option Engine.AnswerRecord)
    (hq : s.questions.get? s.currentIndex = some q)
    (ho : s.userAnswers.get? s.currentIndex = some orec)
    (hg : (s.currentIndex : ℤ) < (s.questions.length : ℤ) - 1) :
    Engine.nextQuestion now s =
      (true,
       { s with
           userAnswers := s.userAnswers.set s.currentIndex
             (some { qId := recQId orec q, selected := recSel orec,
                     timeSpent := recTime orec +
                       Engine.round1 (((now : ℚ) - Engine.anchorQ s) / 1000) }),
           currentIndex := s.currentIndex + 1,
           currentQuestionStart := some now }) := by
  unfold Engine.nextQuestion
  rw [if_pos hg, updateTime_eq now s q orec hq ho]

/-- Characterization of `prevQuestion` v6.1 when not at the first question:
flush, move back, reset the anchor. -/
theorem prevQuestion_eq (now : ℤ) (s : Engine.EngineState)
    (q : AdapterV61.Question) (orec : Option Engine.AnswerRecord)
    (hq : s.questions.get? s.currentIndex = some q)
    (ho : s.userAnswers.get? s.currentIndex = some orec)
    (hg : 0 < s.currentIndex) :
    Engine.prevQuestion now s =
      (true,
       { s with
           userAnswers := s.userAnswers.set s.currentIndex
             (some { qId := recQId orec q, selected := recSel orec,
                     timeSpent := recTime orec +
                       Engine.round1 (((now : ℚ) - Engine.anchorQ s) / 1000) }),
           currentIndex := s.currentIndex - 1,
           currentQuestionStart := some now }) := by
  unfold Engine.prevQuestion
  rw [if_pos hg, updateTime_eq now s q orec hq ho]

/-- C4.  Submitting on a question, navigating away, navigating back and
submitting again accumulates `timeSpent` to the sum of the two viewing
intervals `[t0,t2]` and `[t3,t4]` — `submitAnswer` adds the elapsed time to
the record's existing value rather than overwriting it, and no interval is
counted twice because every accounting path (submit at `t1`, the
`nextQuestion` flush at `t2`, the `prevQuestion` flush at `t3`, submit at
`t4`) resets the display-timestamp anchor.  Timestamps are milliseconds;
each elapsed sub-interval is a whole number of tenths of a second so the
per-flush `toFixed(1)` rounding is exact. -/
theorem submit_time_accumulates
    (qs : List AdapterV61.Question) (i tq : ℕ) (ss : Option ℤ)
    (tm : Engine.TimerState) (t0 t1 t2 t3 t4 : ℤ) (a b : ℚ)
    (hlen : i + 1 < qs.length)
    (hd1 : (100 : ℤ) ∣ (t1 - t0)) (hd2 : (100 : ℤ) ∣ (t2 - t1))
    (hd3 : (100 : ℤ) ∣ (t4 - t3))
    (s1 : Engine.EngineState)
    (hs1 : Engine.submitAnswer t1 a
      { questions := qs, totalQuestions := tq, currentIndex := i,
        userAnswers := List.replicate qs.length none, timer := tm,
        currentQuestionStart := some t0, sessionStart := ss } = .ok s1)
    (s4 : Engine.EngineState)
    (hs4 : Engine.submitAnswer t4 b
      ((Engine.prevQuestion t3 (Engine.nextQuestion t2 s1).2).2) = .ok s4) :
    (Engine.nextQuestion t2 s1).1 = true ∧
    (Engine.prevQuestion t3 (Engine.nextQuestion t2 s1).2).1 = true ∧
    ∃ rec : Engine.AnswerRecord,
      s4.userAnswers.get? i = some (some rec) ∧
      rec.selected = some b ∧
      rec.timeSpent = ((t2 - t0 : ℤ) : ℚ) / 1000 + ((t4 - t3 : ℤ) : ℚ) / 1000 := by
  have hi : i < qs.length := by omega
  have hi1 : i + 1 < qs.length := hlen
  obtain ⟨q, hq⟩ : ∃ q, qs.get? i = some q := ⟨qs.get ⟨i, hi⟩, List.get?_eq_get hi⟩
  obtain ⟨q2, hq2⟩ : ∃ q2, qs.get? (i + 1) = some q2 :=
    ⟨qs.get ⟨i + 1, hi1⟩, List.get?_eq_get hi1⟩
  have hrep : ∀ j, j < qs.length →
      (List.replicate qs.length (none : Option Engine.AnswerRecord)).get? j = some none := by
    intro j hj
    simp [List.get?_eq_getElem?, List.getElem?_replicate, hj]
  -- Stage 1: the first submit.
  rw [submitAnswer_eq t1 a _ q none hq (hrep i hi)] at hs1
  simp only [Except.ok.injEq] at hs1
  subst hs1
  simp only [Engine.anchorQ, recTime, recSel, recQId, zero_add] at hs4 ⊢
  -- Stage 2: navigate forward at t2.
  have hgetA : ((List.replicate qs.length (none : Option Engine.AnswerRecord)).set i
      (some { qId := q.id, selected := some a, timeSpent := Engine.round1 (((t1 : ℚ) - (t0 : ℚ)) / 1000) })).get? i =
      some (some { qId := q.id, selected := some a, timeSpent := Engine.round1 (((t1 : ℚ) - (t0 : ℚ)) / 1000) }) :=
    List.get?_set_eq_of_lt _ (by simpa using hi)
  have hg2 : ((i : ℕ) : ℤ) < ((qs.length : ℕ) : ℤ) - 1 := by omega
  rw [nextQuestion_eq t2 _ q _ hq hgetA hg2] at hs4 ⊢
  simp only [Engine.anchorQ, recTime, recSel, recQId, zero_add, Nat.add_sub_cancel] at hs4 ⊢
  refine ⟨trivial, ?_⟩
  -- Stage 3: navigate back at t3.
  have hgetN : ((((List.replicate qs.length (none : Option Engine.AnswerRecord)).set i
      (some { qId := q.id, selected := some a, timeSpent := Engine.round1 (((t1 : ℚ) - (t0 : ℚ)) / 1000) })).set i
      (some { qId := q.id, selected := some a, timeSpent := Engine.round1 (((t1 : ℚ) - (t0 : ℚ)) / 1000) + Engine.round1 (((t2 : ℚ) - (t1 : ℚ)) / 1000) }))).get? (i + 1) = some none := by
    rw [List.get?_set_ne _ _ (by omega), List.get?_set_ne _ _ (by omega)]
    exact hrep (i + 1) hi1
  have hg3 : 0 < i + 1 := by omega
  rw [prevQuestion_eq t3 _ q2 _ hq2 hgetN hg3] at hs4 ⊢
  simp only [Engine.anchorQ, recTime, recSel, recQId, zero_add, Nat.add_sub_cancel] at hs4 ⊢
  refine ⟨trivial, ?_⟩
  -- Stage 4: the second submit at t4.
  have hgetB : (((((List.replicate qs.length (none : Option Engine.AnswerRecord)).set i
      (some { qId := q.id, selected := some a, timeSpent := Engine.round1 (((t1 : ℚ) - (t0 : ℚ)) / 1000) })).set i
      (some { qId := q.id, selected := some a, timeSpent := Engine.round1 (((t1 : ℚ) - (t0 : ℚ)) / 1000) + Engine.round1 (((t2 : ℚ) - (t1 : ℚ)) / 1000) })).set
      (i + 1) (some { qId := q2.id, selected := none, timeSpent := Engine.round1 (((t3 : ℚ) - (t2 : ℚ)) / 1000) }))).get? i =
      some (some { qId := q.id, selected := some a, timeSpent := Engine.round1 (((t1 : ℚ) - (t0 : ℚ)) / 1000) + Engine.round1 (((t2 : ℚ) - (t1 : ℚ)) / 1000) }) := by
    rw [List.get?_set_ne _ _ (by omega)]
    exact List.get?_set_eq_of_lt _ (by simpa using hi)
  rw [submitAnswer_eq t4 b _ q _ hq hgetB] at hs4
  simp only [Engine.anchorQ, recTime, recSel, recQId, zero_add, Except.ok.injEq] at hs4
  subst hs4
  refine ⟨_, List.get?_set_eq_of_lt _ (by simpa using hi), rfl, ?_⟩
  have e1 : Engine.round1 (((t1 : ℚ) - (t0 : ℚ)) / 1000) = ((t1 - t0 : ℤ) : ℚ) / 1000 := by
    rw [show ((t1 : ℚ) - (t0 : ℚ)) = ((t1 - t0 : ℤ) : ℚ) from by push_cast; ring]
    exact round1_exact _ hd1
  have e2 : Engine.round1 (((t2 : ℚ) - (t1 : ℚ)) / 1000) = ((t2 - t1 : ℤ) : ℚ) / 1000 := by
    rw [show ((t2 : ℚ) - (t1 : ℚ)) = ((t2 - t1 : ℤ) : ℚ) from by push_cast; ring]
    exact round1_exact _ hd2
  have e3 : Engine.round1 (((t4 : ℚ) - (t3 : ℚ)) / 1000) = ((t4 - t3 : ℤ) : ℚ) / 1000 := by
    rw [show ((t4 : ℚ) - (t3 : ℚ)) = ((t4 - t3 : ℤ) : ℚ) from by push_cast; ring]
    exact round1_exact _ hd3
  show Engine.round1 (((t1 : ℚ) - (t0 : ℚ)) / 1000) + Engine.round1 (((t2 : ℚ) - (t1 : ℚ)) / 1000) + Engine.round1 (((t4 : ℚ) - (t3 : ℚ)) / 1000) = ((t2 - t0 : ℤ) : ℚ) / 1000 + ((t4 - t3 : ℤ) : ℚ) / 1000
  rw [e1, e2, e3]
  push_cast
  ring

theorem submit_time_accumulates_witness :
    c4rec.selected = some 0 ∧ c4rec.timeSpent = 9 := by
  obtain ⟨rec, hget, hsel, hts⟩ :=
    (submit_time_accumulates [witQ, witQ2] 0 2 none witTimer 0 3000 5000 9000 13000 1 0
      (by norm_num) (by norm_num) (by norm_num) (by norm_num) c4s1 rfl c4s4 rfl).2.2
  have hr : c4rec = rec := by
    unfold c4rec
    rw [hget]
  refine ⟨hr ▸ hsel, ?_⟩
  rw [hr, hts]
  norm_num

/-- C5 (amended).  In v6.1, `next()` and `previous()` first flush the
elapsed display time into the current question's record (creating an
unanswered record when none exists, so thinking time on a skipped question
is counted), then move the pointer and reset the display timestamp.  But
`jumpTo(index)` exists only in the v5.0 engine, and there an in-bounds jump
moves the pointer and resets the display timestamp without flushing: the
answer array is left untouched and the elapsed time is discarded. -/
theorem navigation_flush_behavior :
    (∀ (now : ℤ) (s : Engine.EngineState) (q : AdapterV61.Question)
       (orec : Option Engine.AnswerRecord),
       s.questions.get? s.currentIndex = some q →
       s.userAnswers.get? s.currentIndex = some orec →
       (s.currentIndex : ℤ) < (s.questions.length : ℤ) - 1 →
       Engine.nextQuestion now s =
         (true,
          { s with
              userAnswers := s.userAnswers.set s.currentIndex
                (some { qId := recQId orec q, selected := recSel orec,
                        timeSpent := recTime orec +
                          Engine.round1 (((now : ℚ) - Engine.anchorQ s) / 1000) }),
              currentIndex := s.currentIndex + 1,
              currentQuestionStart := some now })) ∧
    (∀ (now : ℤ) (s : Engine.EngineState) (q : AdapterV61.Question)
       (orec : Option Engine.AnswerRecord),
       s.questions.get? s.currentIndex = some q →
       s.userAnswers.get? s.currentIndex = some orec →
       0 < s.currentIndex →
       Engine.prevQuestion now s =
         (true,
          { s with
              userAnswers := s.userAnswers.set s.currentIndex
                (some { qId := recQId orec q, selected := recSel orec,
                        timeSpent := recTime orec +
                          Engine.round1 (((now : ℚ) - Engine.anchorQ s) / 1000) }),
              currentIndex := s.currentIndex - 1,
              currentQuestionStart := some now })) ∧
    (∀ (idx now : ℤ) (s : EngineV50.StateV50),
       0 ≤ idx → idx < (s.questions.length : ℤ) →
       EngineV50.jumpTo idx now s =
         (true, { s with currentIndex := idx.toNat,
                         questionStartTime := some now })) := by
  refine ⟨?_, ?_, ?_⟩
  · intro now s q orec hq ho hg
    exact nextQuestion_eq now s q orec hq ho hg
  · intro now s q orec hq ho hg
    exact prevQuestion_eq now s q orec hq ho hg
  · intro idx now s h1 h2
    unfold EngineV50.jumpTo
    rw [if_pos ⟨h1, h2⟩]

/-- Counterexample to C5 as stated: a v5.0 `jumpTo` from question 0 at
time 5000 (displayed since time 0) succeeds but leaves the answer array
untouched — no record is created and the 5 s of thinking time vanish. -/
theorem jumpTo_discards_elapsed_time :
    EngineV50.jumpTo 1 5000 c5v50 =
      (true, { questions := [witQ, witQ2], currentIndex := 1,
               userAnswers := [none, none], questionStartTime := some 5000 }) ∧
    (EngineV50.jumpTo 1 5000 c5v50).2.userAnswers.get? 0 = some none :=
  ⟨rfl, rfl⟩

theorem navigation_flush_behavior_witness :
    (Engine.nextQuestion 5000 c4Start).1 = true ∧
    EngineV50.jumpTo 1 5000 c5v50 =
      (true, { questions := [witQ, witQ2], currentIndex := 1,
               userAnswers := [none, none], questionStartTime := some 5000 }) := by
  have h := navigation_flush_behavior
  constructor
  · rw [h.1 5000 c4Start witQ none rfl rfl (by norm_num [c4Start])]
  · exact h.2.2 1 5000 c5v50 (by norm_num) (by norm_num [c5v50])

/-- C8 (amended).  `init` returns `false` without throwing and leaves the
state untouched when the argument is null/non-array (`none`) or empty; on a
non-empty list whose first question's tags support the `includes` check it
returns `true` after a full reset: no timer handle survives
(`intervalId = none`, inactive), the answer array is freshly allocated
all-unanswered at the question count, the index is 0, and
`totalSeconds = count × allowance` (90 s per question for CSAT-tagged sets,
72 s otherwise).  A first question whose truthy tags value is neither an
array nor a string makes the `includes` call throw instead (see the
counterexample). -/
theorem init_validates_and_resets (now : ℤ) (s : Engine.EngineState) :
    Engine.engineInit now none s = .ok (false, s) ∧
    Engine.engineInit now (some []) s = .ok (false, s) ∧
    (∀ (q0 : AdapterV61.Question) (qs : List AdapterV61.Question) (b : Bool),
      Engine.isCsatInit q0 = .ok b →
      Engine.engineInit now (some (q0 :: qs)) s = .ok (true,
        { questions := q0 :: qs, totalQuestions := (q0 :: qs).length,
          currentIndex := 0,
          userAnswers := List.replicate (q0 :: qs).length none,
          timer := { totalSeconds := ((q0 :: qs).length : ℤ) * (if b then 90 else 72),
                     remaining := ((q0 :: qs).length : ℤ) * (if b then 90 else 72),
                     intervalId := none, expected := none, isActive := false,
                     startTime := none },
          currentQuestionStart := none, sessionStart := some now })) := by
  refine ⟨rfl, rfl, ?_⟩
  intro q0 qs b hb
  simp only [Engine.engineInit, Engine.resetState, bind, Except.bind, hb, pure, Except.pure]

/-- Counterexample to C8 as stated: `init` on a non-empty question list can
throw rather than return `true` — numeric tags have no `includes` method. -/
theorem init_throws_on_numeric_tags :
    Engine.engineInit 0 (some [badTagsQ]) dirtyState = .error () := rfl

theorem init_validates_and_resets_witness :
    Engine.engineInit 0 none dirtyState = .ok (false, dirtyState) ∧
    Engine.engineInit 0 (some []) dirtyState = .ok (false, dirtyState) ∧
    Engine.engineInit 7 (some [witQ]) dirtyState = .ok (true,
      { questions := [witQ], totalQuestions := 1, currentIndex := 0,
        userAnswers := List.replicate 1 none,
        timer := { totalSeconds := 72, remaining := 72, intervalId := none,
                   expected := none, isActive := false, startTime := none },
        currentQuestionStart := none, sessionStart := some 7 }) := by
  have h := init_validates_and_resets 0 dirtyState
  have h7 := init_validates_and_resets 7 dirtyState
  refine ⟨h.1, h.2.1, ?_⟩
  rw [h7.2.2 witQ [] false rfl]
  norm_num

/-- C10 (amended).  `submitAnswer` records whatever value it is given —
there is no validation against the current question's option count — and
`calculateResult` classifies a non-null recorded selection purely by
equality with `correctIndex`: any selection different from `correctIndex`
(in particular an out-of-range one such as `-1` or `options.length`, when
`correctIndex` is in range) is counted wrong, not skipped, and feeds the
negative-marking term of the score; but an out-of-range selection that
happens to equal an out-of-range `correctIndex` is counted correct (see the
counterexample). -/
theorem submit_unvalidated_selection_classified_by_equality :
    (∀ (now : ℤ) (idx : ℚ) (s : Engine.EngineState) (q : AdapterV61.Question)
       (orec : Option Engine.AnswerRecord),
       s.questions.get? s.currentIndex = some q →
       s.userAnswers.get? s.currentIndex = some orec →
       ∃ s2, Engine.submitAnswer now idx s = .ok s2 ∧
         s2.userAnswers.get? s.currentIndex =
           some (some { qId := q.id, selected := some idx,
                        timeSpent := recTime orec +
                          Engine.round1 (((now : ℚ) - Engine.anchorQ s) / 1000) })) ∧
    (∀ (q : AdapterV61.Question) (qs : List AdapterV61.Question)
       (r : Engine.AnswerRecord) (ans : List (Option Engine.AnswerRecord)) (v : ℚ),
       r.selected = some v → v ≠ q.correctIndex →
       Engine.tallyFrom (q :: qs) (some r :: ans) =
         { correct := (Engine.tallyFrom qs ans).correct,
           wrong := (Engine.tallyFrom qs ans).wrong + 1,
           skipped := (Engine.tallyFrom qs ans).skipped,
           totalTimeSpent := (Engine.tallyFrom qs ans).totalTimeSpent + r.timeSpent,
           mistakes := (q, v) :: (Engine.tallyFrom qs ans).mistakes }) := by
  constructor
  · intro now idx s q orec hq ho
    refine ⟨_, submitAnswer_eq now idx s q orec hq ho, ?_⟩
    have hlt : s.currentIndex < s.userAnswers.length := by
      by_contra hge
      rw [List.get?_eq_none.mpr (by omega)] at ho
      exact Option.noConfusion ho
    exact List.get?_set_eq_of_lt _ hlt
  · intro q qs r ans v hsel hne
    simp only [Engine.tallyFrom, List.head?, List.tail, Option.getD, hsel]
    rw [if_neg hne]

theorem out_of_range_selection_counted_correct :
    (Engine.tallyFrom [oobQ] [some oobRec]).correct = 1 ∧
    (Engine.tallyFrom [oobQ] [some oobRec]).wrong = 0 ∧
    ¬((5 : ℚ) < (oobQ.options.length : ℚ)) := by
  refine ⟨?_, ?_, by norm_num [oobQ, witQ]⟩
  · simp [Engine.tallyFrom, oobQ, oobRec, witQ]
  · simp [Engine.tallyFrom, oobQ, oobRec, witQ]

theorem submit_unvalidated_witness :
    (Engine.tallyFrom [witQ]
        [some { qId := JSValue.str "q1", selected := some (-1), timeSpent := 2 }]).wrong = 1 ∧
    c10submit.userAnswers.get? 0 =
      some (some { qId := witQ.id, selected := some (-1),
                   timeSpent := recTime none +
                     Engine.round1 (((1000 : ℚ) - Engine.anchorQ c4Start) / 1000) }) := by
  have h := submit_unvalidated_selection_classified_by_equality
  constructor
  · rw [h.2 witQ [] { qId := JSValue.str "q1", selected := some (-1), timeSpent := 2 } [] (-1) rfl
      (by norm_num [witQ])]
    simp [Engine.tallyFrom]
  · obtain ⟨s2, hs2, hget⟩ := h.1 1000 (-1) c4Start witQ none rfl rfl
    have hc : c10submit = s2 := by
      unfold c10submit
      rw [hs2]
    rw [hc]
    exact hget

/-- The reserialized question's text is found by `getVal` under the `text`
alias (whether or not the stored value is truthy, since the
case-insensitive scan returns the stored value as well). -/
theorem getVal_qkvs_text (Q : AdapterV61.Question) :
    AdapterV61.getVal (.obj (AdapterV61.qkvs Q))
      ["question", "text", "q", "title", "statement"] = .ok Q.text := by
  show Except.ok (AdapterV61.getValLoop (.obj (AdapterV61.qkvs Q))
      ["id", "text", "options", "correctIndex", "topic", "difficulty", "tags", "explanation"]
      ["id", "text", "options", "correctindex", "topic", "difficulty", "tags", "explanation"]
      ["question", "text", "q", "title", "statement"]) = Except.ok Q.text
  have e1 : propOf (.obj (AdapterV61.qkvs Q)) "question" = .undefined := rfl
  have e2 : propOf (.obj (AdapterV61.qkvs Q)) "text" = Q.text := rfl
  have f1 : List.findIdx? (fun k => k == jsToLower "question")
      ["id", "text", "options", "correctindex", "topic", "difficulty", "tags", "explanation"] = none := rfl
  have f2 : List.findIdx? (fun k => k == jsToLower "text")
      ["id", "text", "options", "correctindex", "topic", "difficulty", "tags", "explanation"] = some 1 := rfl
  simp only [AdapterV61.getValLoop, e1, e2, f1, f2, truthy, Bool.false_eq_true, reduceIte,
    List.get?, Option.getD, ite_self]

/-- The reserialized options array is found directly (arrays are always
truthy). -/
theorem getVal_qkvs_options (Q : AdapterV61.Question) :
    AdapterV61.getVal (.obj (AdapterV61.qkvs Q))
      ["options", "choices", "answers", "alternatives"] = .ok (.arr Q.options) := by
  show Except.ok (AdapterV61.getValLoop (.obj (AdapterV61.qkvs Q))
      ["id", "text", "options", "correctIndex", "topic", "difficulty", "tags", "explanation"]
      ["id", "text", "options", "correctindex", "topic", "difficulty", "tags", "explanation"]
      ["options", "choices", "answers", "alternatives"]) = Except.ok (.arr Q.options)
  have e1 : propOf (.obj (AdapterV61.qkvs Q)) "options" = .arr Q.options := rfl
  simp only [AdapterV61.getValLoop, e1, truthy, reduceIte]

/-- The reserialized answer index is found under the `correctIndex` alias,
whether the number is truthy (direct hit) or `0` (case-insensitive
scan). -/
theorem getVal_qkvs_answer (Q : AdapterV61.Question) :
    AdapterV61.getVal (.obj (AdapterV61.qkvs Q))
      ["answer", "correct", "correctIndex", "ans"] = .ok (.num Q.correctIndex) := by
  show Except.ok (AdapterV61.getValLoop (.obj (AdapterV61.qkvs Q))
      ["id", "text", "options", "correctIndex", "topic", "difficulty", "tags", "explanation"]
      ["id", "text", "options", "correctindex", "topic", "difficulty", "tags", "explanation"]
      ["answer", "correct", "correctIndex", "ans"]) = Except.ok (.num Q.correctIndex)
  have e1 : propOf (.obj (AdapterV61.qkvs Q)) "answer" = .undefined := rfl
  have e2 : propOf (.obj (AdapterV61.qkvs Q)) "correct" = .undefined := rfl
  have e3 : propOf (.obj (AdapterV61.qkvs Q)) "correctIndex" = .num Q.correctIndex := rfl
  have f1 : List.findIdx? (fun k => k == jsToLower "answer")
      ["id", "text", "options", "correctindex", "topic", "difficulty", "tags", "explanation"] = none := rfl
  have f2 : List.findIdx? (fun k => k == jsToLower "correct")
      ["id", "text", "options", "correctindex", "topic", "difficulty", "tags", "explanation"] = none := rfl
  have f3 : List.findIdx? (fun k => k == jsToLower "correctIndex")
      ["id", "text", "options", "correctindex", "topic", "difficulty", "tags", "explanation"] = some 3 := rfl
  simp only [AdapterV61.getValLoop, e1, e2, e3, f1, f2, f3, truthy, Bool.false_eq_true,
    reduceIte, List.get?, Option.getD, ite_self]

/-- The reserialized explanation object is found directly (objects are
always truthy). -/
theorem getVal_qkvs_expl (Q : AdapterV61.Question) :
    AdapterV61.getVal (.obj (AdapterV61.qkvs Q))
      ["explanation", "solution", "rationale", "desc"] =
      .ok (AdapterV61.explToJS Q.explanation) := by
  show Except.ok (AdapterV61.getValLoop (.obj (AdapterV61.qkvs Q))
      ["id", "text", "options", "correctIndex", "topic", "difficulty", "tags", "explanation"]
      ["id", "text", "options", "correctindex", "topic", "difficulty", "tags", "explanation"]
      ["explanation", "solution", "rationale", "desc"]) =
      Except.ok (AdapterV61.explToJS Q.explanation)
  have e1 : propOf (.obj (AdapterV61.qkvs Q)) "explanation" = AdapterV61.explToJS Q.explanation := rfl
  simp only [AdapterV61.getValLoop, e1, AdapterV61.explToJS, truthy, reduceIte]

/-- The reserialized id is read back directly. -/
theorem getProp_qkvs_id (Q : AdapterV61.Question) :
    getProp (.obj (AdapterV61.qkvs Q)) "id" = .ok Q.id := rfl

/-- The reserialized topic is found under the `topic` alias. -/
theorem getVal_qkvs_topic (Q : AdapterV61.Question) :
    AdapterV61.getVal (.obj (AdapterV61.qkvs Q))
      ["topic", "subject", "category"] = .ok Q.topic := by
  show Except.ok (AdapterV61.getValLoop (.obj (AdapterV61.qkvs Q))
      ["id", "text", "options", "correctIndex", "topic", "difficulty", "tags", "explanation"]
      ["id", "text", "options", "correctindex", "topic", "difficulty", "tags", "explanation"]
      ["topic", "subject", "category"]) = Except.ok Q.topic
  have e1 : propOf (.obj (AdapterV61.qkvs Q)) "topic" = Q.topic := rfl
  have f1 : List.findIdx? (fun k => k == jsToLower "topic")
      ["id", "text", "options", "correctindex", "topic", "difficulty", "tags", "explanation"] = some 4 := rfl
  simp only [AdapterV61.getValLoop, e1, f1, truthy, Bool.false_eq_true, reduceIte,
    List.get?, Option.getD, ite_self]

/-- The reserialized difficulty is found under the `difficulty` alias. -/
theorem getVal_qkvs_difficulty (Q : AdapterV61.Question) :
    AdapterV61.getVal (.obj (AdapterV61.qkvs Q))
      ["difficulty", "level"] = .ok Q.difficulty := by
  show Except.ok (AdapterV61.getValLoop (.obj (AdapterV61.qkvs Q))
      ["id", "text", "options", "correctIndex", "topic", "difficulty", "tags", "explanation"]
      ["id", "text", "options", "correctindex", "topic", "difficulty", "tags", "explanation"]
      ["difficulty", "level"]) = Except.ok Q.difficulty
  have e1 : propOf (.obj (AdapterV61.qkvs Q)) "difficulty" = Q.difficulty := rfl
  have f1 : List.findIdx? (fun k => k == jsToLower "difficulty")
      ["id", "text", "options", "correctindex", "topic", "difficulty", "tags", "explanation"] = some 5 := rfl
  simp only [AdapterV61.getValLoop, e1, f1, truthy, Bool.false_eq_true, reduceIte,
    List.get?, Option.getD, ite_self]

/-- The reserialized tags value is found under the `tags` alias. -/
theorem getVal_qkvs_tags (Q : AdapterV61.Question) :
    AdapterV61.getVal (.obj (AdapterV61.qkvs Q))
      ["tags", "keywords"] = .ok Q.tags := by
  show Except.ok (AdapterV61.getValLoop (.obj (AdapterV61.qkvs Q))
      ["id", "text", "options", "correctIndex", "topic", "difficulty", "tags", "explanation"]
      ["id", "text", "options", "correctindex", "topic", "difficulty", "tags", "explanation"]
      ["tags", "keywords"]) = Except.ok Q.tags
  have e1 : propOf (.obj (AdapterV61.qkvs Q)) "tags" = Q.tags := rfl
  have f1 : List.findIdx? (fun k => k == jsToLower "tags")
      ["id", "text", "options", "correctindex", "topic", "difficulty", "tags", "explanation"] = some 6 := rfl
  simp only [AdapterV61.getValLoop, e1, f1, truthy, Bool.false_eq_true, reduceIte,
    List.get?, Option.getD, ite_self]

/-- The reserialized explanation core is found under the `core` alias. -/
theorem getVal_ekvs_core (c en el : JSValue) :
    AdapterV61.getVal
      (.obj [("core", c), ("expert_note", en), ("elimination", el)])
      ["core", "text", "main"] = .ok c := by
  show Except.ok (AdapterV61.getValLoop
      (.obj [("core", c), ("expert_note", en), ("elimination", el)])
      ["core", "expert_note", "elimination"] ["core", "expert_note", "elimination"]
      ["core", "text", "main"]) = Except.ok c
  have e1 : propOf (.obj [("core", c), ("expert_note", en), ("elimination", el)]) "core" = c := rfl
  have f1 : List.findIdx? (fun k => k == jsToLower "core")
      ["core", "expert_note", "elimination"] = some 0 := rfl
  simp only [AdapterV61.getValLoop, e1, f1, truthy, Bool.false_eq_true, reduceIte,
    List.get?, Option.getD, ite_self]

/-- The reserialized expert note is found under the `expert_note` alias. -/
theorem getVal_ekvs_expert_note (c en el : JSValue) :
    AdapterV61.getVal
      (.obj [("core", c), ("expert_note", en), ("elimination", el)])
      ["expert_note", "note", "extra"] = .ok en := by
  show Except.ok (AdapterV61.getValLoop
      (.obj [("core", c), ("expert_note", en), ("elimination", el)])
      ["core", "expert_note", "elimination"] ["core", "expert_note", "elimination"]
      ["expert_note", "note", "extra"]) = Except.ok en
  have e1 : propOf (.obj [("core", c), ("expert_note", en), ("elimination", el)]) "expert_note" = en := rfl
  have f1 : List.findIdx? (fun k => k == jsToLower "expert_note")
      ["core", "expert_note", "elimination"] = some 1 := rfl
  simp only [AdapterV61.getValLoop, e1, f1, truthy, Bool.false_eq_true, reduceIte,
    List.get?, Option.getD, ite_self]

/-- The reserialized elimination note is found under the `elimination`
alias. -/
theorem getVal_ekvs_elimination (c en el : JSValue) :
    AdapterV61.getVal
      (.obj [("core", c), ("expert_note", en), ("elimination", el)])
      ["elimination", "trick"] = .ok el := by
  show Except.ok (AdapterV61.getValLoop
      (.obj [("core", c), ("expert_note", en), ("elimination", el)])
      ["core", "expert_note", "elimination"] ["core", "expert_note", "elimination"]
      ["elimination", "trick"]) = Except.ok el
  have e1 : propOf (.obj [("core", c), ("expert_note", en), ("elimination", el)]) "elimination" = el := rfl
  have f1 : List.findIdx? (fun k => k == jsToLower "elimination")
      ["core", "expert_note", "elimination"] = some 2 := rfl
  simp only [AdapterV61.getValLoop, e1, f1, truthy, Bool.false_eq_true, reduceIte,
    List.get?, Option.getD, ite_self]

/-- Truthiness of the null constructor. -/
theorem truthy_null : truthy .null = false := rfl

/-- Truthiness of arrays. -/
theorem truthy_arr (xs : List JSValue) : truthy (.arr xs) = true := rfl

/-- Truthiness of objects. -/
theorem truthy_obj (kvs : List (String × JSValue)) : truthy (.obj kvs) = true := rfl

/-- Round trip of a single normalized question: reserializing it and
running `_normalizeItem` again reproduces it exactly. -/
theorem normalizeItem_roundtrip (n i : ℕ) (Q : AdapterV61.Question)
    (hQ : AdapterV61.NormalizedQ Q) :
    AdapterV61.normalizeItem n (.obj (AdapterV61.qkvs Q)) i = .ok (some Q) := by
  obtain ⟨qid, qtext, qopts, qci, qtopic, qdiff, qtags, ⟨ec, een, eel⟩⟩ := Q
  obtain ⟨hid, htext, hlen, htopic, hdiff, htags, hcore, hen, hel⟩ := hQ
  dsimp only at hid htext hlen htopic hdiff htags hcore hen hel
  have hdec : decide (qopts.length < 2) = false := by
    simp
    omega
  rcases hen with hen | hen <;> rcases hel with hel | hel <;>
    simp only [AdapterV61.normalizeItem, bind, Except.bind, getVal_qkvs_text,
      getVal_qkvs_options, getVal_qkvs_answer, getVal_qkvs_expl, getProp_qkvs_id,
      getVal_qkvs_topic, getVal_qkvs_difficulty, getVal_qkvs_tags,
      AdapterV61.explanationFor, AdapterV61.explToJS, AdapterV61.answerIndexOf,
      getVal_ekvs_core, getVal_ekvs_expert_note, getVal_ekvs_elimination,
      hen, hel, htext, hdec, hid, htopic, hdiff, htags, hcore,
      truthy_null, truthy_obj, truthy_arr, Bool.not_true, Bool.false_or,
      Bool.false_eq_true, reduceIte, pure, Except.pure]

/-- Round trip of a whole normalized list through the processing loop. -/
theorem processItemsFrom_roundtrip (n : ℕ) (l : List AdapterV61.Question) :
    ∀ i : ℕ, (∀ Q ∈ l, AdapterV61.NormalizedQ Q) →
    AdapterV61.processItemsFrom n i (l.map AdapterV61.questionToJS) = .ok l := by
  induction l with
  | nil => intro i h; rfl
  | cons Q rest ih =>
    intro i h
    simp only [List.map_cons, AdapterV61.processItemsFrom, bind, Except.bind,
      AdapterV61.questionToJS]
    rw [normalizeItem_roundtrip n i Q (h Q (by simp))]
    rw [ih (i + 1) (fun x hx => h x (by simp [hx]))]
    rfl

/-- Everything v6.1 `normalize` returns satisfies the shape invariant. -/
theorem normalize_all_normalized {n : ℕ} {raw : JSValue} {l : List AdapterV61.Question}
    (h : AdapterV61.normalize n raw = .ok l) : ∀ Q ∈ l, AdapterV61.NormalizedQ Q := by
  unfold AdapterV61.normalize at h
  split at h
  · simp only [Except.ok.injEq] at h
    subst h
    simp
  · simp only at h
    split at h
    · simp only [Except.ok.injEq] at h
      subst h
      simp
    · exact processItemsFrom_shape h

/-- C9.  Applying v6.1 `normalize` to its own output, reserialized and
re-wrapped as a `questions` object, reproduces the question list exactly:
same count and the same id, text, options, correctIndex, topic,
difficulty, tags and explanation for every question — normalization is
idempotent. -/
theorem normalize_idempotent (n1 : ℕ) (raw : JSValue) (l : List AdapterV61.Question)
    (n2 : ℕ) (h : AdapterV61.normalize n1 raw = .ok l) :
    AdapterV61.normalize n2
      (.obj [("questions", .arr (l.map AdapterV61.questionToJS))]) = .ok l := by
  have hshape := normalize_all_normalized h
  unfold AdapterV61.normalize
  rw [if_neg (by simp [truthy])]
  have hsrc : AdapterV61.findSourceArray
      (.obj [("questions", .arr (l.map AdapterV61.questionToJS))]) =
      l.map AdapterV61.questionToJS := rfl
  simp only [hsrc, List.length_map]
  cases l with
  | nil => rfl
  | cons Q rest =>
    rw [if_neg (by simp)]
    exact processItemsFrom_roundtrip n2 (Q :: rest) 0 hshape

theorem normalize_idempotent_witness :
    AdapterV61.normalize 7
      (.obj [("questions", .arr (c9out.map AdapterV61.questionToJS))]) = .ok c9out ∧
    c9out.length = 2 :=
  ⟨normalize_idempotent 0 c9raw c9out 7 rfl, rfl⟩
